import Mathlib

/-!
# The verification gate of gastown: auditor, response parsing, gate policy

A shallow embedding of `internal/auditor/auditor.go` and
`internal/refinery/verification.go`.

Conventions of the embedding.

* A Go `string` is a Lean `String`. The brace scanner of `extractJSON` works on
  bytes; the two bytes it looks for are ASCII, and an ASCII byte never occurs
  inside a multi-byte UTF-8 sequence, so scanning the characters of a valid
  UTF-8 text visits the same braces and cuts the same substring.
* A `float64` confidence is a rational number. The code only compares
  confidences and assigns the constants 0 and 1; a decoded JSON number is
  always finite, and the order of finite floats is the order of the rationals
  they denote.
* `type Verdict string` and `type VerificationStatus string` stay strings, so
  that the zero value `""` and the declared but unused `pending` exist.
* A call of an external collaborator (tracker lookup, reviewer process) is a
  function passed in, and every call made is written to a trace.
* `time.Now()` is a clock passed in: `clk k` is the reading of the k-th call.
-/

namespace Gastown

/-! ## Go values -/

/-- A Go `error`. `new` is a value made by `errors.New` or by `fmt.Errorf`
without `%w` (identified by its text); `wrap` is a value made by `fmt.Errorf`
with one `%w` verb: `text` is the whole message and `inner` is what `Unwrap`
returns. -/
inductive GoError where
  | new (text : String)
  | wrap (text : String) (inner : GoError)
  deriving DecidableEq, Repr

/-- The method `Error()` of an error value. -/
def GoError.Error : GoError → String
  | .new t => t
  | .wrap t _ => t

/-- The function `errors.Is`: does `target` occur on the unwrap chain of `err`. -/
def errorsIs : GoError → GoError → Bool
  | .new t, target => decide (GoError.new t = target)
  | .wrap t inner, target => decide (GoError.wrap t inner = target) || errorsIs inner target

/-- The opening brace, byte 0x7b. -/
def lbrace : Char := '\x7b'

/-- The closing brace, byte 0x7d. -/
def rbrace : Char := '\x7d'

/-- A `context.Context` as far as the code touches it: the time budget left
until the deadline, in nanoseconds, when there is a deadline. -/
structure Context where
  budget : Option Int
  deriving DecidableEq, Repr

/-- Two's-complement wrap of an integer into `int64`, as Go multiplication does. -/
def wrapInt64 (x : Int) : Int := (x + 2 ^ 63) % 2 ^ 64 - 2 ^ 63

/-- The call `context.WithTimeout(ctx, d)`: the earlier of the two deadlines. -/
def Context.WithTimeout (ctx : Context) (d : Int) : Context :=
  match ctx.budget with
  | none => { budget := some d }
  | some b => { budget := some (min b d) }

/-- Readings of `time.Now()` in nanoseconds: `clk k` is what the k-th call
within one operation returns. -/
abbrev Clock := Nat → Int

/-! ## Package agent -/

/-- The interface `agent.Runtime`. `Execute` launches an external tool; its
outcome is an input of the model. -/
structure Runtime where
  Name : String
  Execute : Context → String → String → Except GoError String
  Available : Bool

/-! ## Package beads (not among the sources: the tracker is a parameter) -/

/-- Modelled from the spec: the struct `beads.Issue` is declared outside the
sources; the tracker record carries an id, a title and a description, the
three fields the auditor reads, and the labels that `runVerifyRequire` reads. -/
structure Issue where
  ID : String
  Title : String
  Description : String
  Labels : List String := []
  deriving DecidableEq, Repr

/-- The tracker handle `*beads.Beads` with its lookup `Show`, and the sentinel
`beads.ErrNotFound` of the same package. -/
structure Beads where
  Show : String → Except GoError Issue
  ErrNotFound : GoError

/-! ## Package auditor -/

/-- The sentinel `ErrNoRuntime`. -/
def ErrNoRuntime : GoError := .new "no verification runtime available"

/-- The sentinel `ErrBeadNotFound`. -/
def ErrBeadNotFound : GoError := .new "bead not found"

/-- The sentinel `ErrInvalidBead`. -/
def ErrInvalidBead : GoError := .new "invalid bead for verification"

/-- The sentinel `ErrParseResponse`. -/
def ErrParseResponse : GoError := .new "failed to parse verification response"

/-- The Go type `Verdict`, a string. -/
abbrev Verdict := String

/-- The constant `VerdictPass`. -/
def VerdictPass : Verdict := "PASS"

/-- The constant `VerdictFail`. -/
def VerdictFail : Verdict := "FAIL"

/-- The constant `VerdictNeedsHuman`. -/
def VerdictNeedsHuman : Verdict := "NEEDS_HUMAN"

/-- The struct `VerificationResult`. Times are nanoseconds. -/
structure VerificationResult where
  BeadID : String := ""
  Verdict : Verdict := ""
  Confidence : ℚ := 0
  Issues : List String := []
  Suggestions : List String := []
  ReviewedBy : String := ""
  ReviewedAt : Int := 0
  Duration : Int := 0
  deriving DecidableEq, Repr

/-- The method `IsPass`. -/
def VerificationResult.IsPass (r : VerificationResult) : Bool := r.Verdict == VerdictPass

/-- The method `IsFail`. -/
def VerificationResult.IsFail (r : VerificationResult) : Bool := r.Verdict == VerdictFail

/-- The method `NeedsHuman`. -/
def VerificationResult.NeedsHuman (r : VerificationResult) : Bool :=
  r.Verdict == VerdictNeedsHuman

/-- The struct `VerificationConfig`. -/
structure VerificationConfig where
  Enabled : Bool
  RequiredConfidence : ℚ
  PreferredRuntime : String
  TimeoutSeconds : Int
  deriving DecidableEq, Repr

/-- The function `DefaultVerificationConfig`. -/
def DefaultVerificationConfig : VerificationConfig :=
  { Enabled := true, RequiredConfidence := 7 / 10, PreferredRuntime := "codex",
    TimeoutSeconds := 300 }

/-! ## Standard library calls -/

/-- The anonymous struct that `parseResponse` decodes into. -/
structure Parsed where
  Verdict : String := ""
  Confidence : ℚ := 0
  Issues : List String := []
  Suggestions : List String := []
  deriving DecidableEq, Repr

/-- What the code takes from Go's standard library and this development does
not rebuild: `json.Unmarshal` into the struct `Parsed`, and the table
`unicode.ToUpper` on the runes outside ASCII. -/
structure GoLib where
  Unmarshal : String → Except GoError Parsed
  unicodeUpper : Char → Char

/-- Upper case of one rune as `strings.ToUpper` computes it: the letters a to z
lose 32, every other ASCII rune stays, a rune outside ASCII goes through the
Unicode table. -/
def upperRune (lib : GoLib) (c : Char) : Char :=
  if c.toNat < 128 then
    (if 97 ≤ c.toNat ∧ c.toNat ≤ 122 then Char.ofNat (c.toNat - 32) else c)
  else lib.unicodeUpper c

/-- The function `strings.ToUpper`. -/
def ToUpper (lib : GoLib) (s : String) : String := String.mk (s.data.map (upperRune lib))

/-- Round a non-negative rational to the nearest natural, a tie to the even one. -/
def roundHalfEven (q : ℚ) : Nat :=
  let a := q.num.toNat
  let f := a / q.den
  let r := a % q.den
  if 2 * r < q.den then f
  else if q.den < 2 * r then f + 1
  else if f % 2 = 0 then f else f + 1

/-- The verb `%.2f` of `fmt.Sprintf` at a finite value. -/
def fmtFixed2 (x : ℚ) : String :=
  let n := roundHalfEven (|x| * 100)
  (if x < 0 then "-" else "") ++ toString (n / 100) ++ "." ++
    (if n % 100 < 10 then "0" else "") ++ toString (n % 100)

/-! ## Extraction of the JSON object -/

/-- The call `strings.Index(text, "\x7b")` on the characters from position `i`
on: the position of the first occurrence of `c`, `none` standing for -1. -/
def strIndexFrom (c : Char) : List Char → Nat → Option Nat
  | [], _ => none
  | x :: xs, i => if x = c then some i else strIndexFrom c xs (i + 1)

/-- The loop `for i := start; i < len(text); i++` of `extractJSON`, run on the
characters from position `i` on with the current `depth`; it yields the
position `i` at which the loop returns, `none` when it falls through. -/
def closeLoop : List Char → Nat → Int → Option Nat
  | [], _, _ => none
  | c :: cs, i, depth =>
    if c = lbrace then closeLoop cs (i + 1) (depth + 1)
    else if c = rbrace then
      if depth - 1 = 0 then some i else closeLoop cs (i + 1) (depth - 1)
    else closeLoop cs (i + 1) depth

/-- The function `extractJSON`. -/
def extractJSON (text : String) : String :=
  match strIndexFrom lbrace text.data 0 with
  | none => ""
  | some start =>
    match closeLoop (text.data.drop start) start 0 with
    | some i => String.mk ((text.data.drop start).take (i + 1 - start))
    | none => ""

/-! ## Prompts -/

/-- The method `buildPrompt`. -/
def buildPrompt (bead : Issue) (_workdir : String) : String :=
  "You are a code reviewer performing independent verification.\n" ++
  "Review the work in this directory for the following task.\n" ++
  "\n" ++
  "Task ID: " ++ bead.ID ++ "\n" ++
  "Title: " ++ bead.Title ++ "\n" ++
  "Description: " ++ bead.Description ++ "\n" ++
  "\n" ++
  "Review the changes for:\n" ++
  "1. Does the code meet the requirements described in the task?\n" ++
  "2. Are there any bugs, edge cases, or error handling issues?\n" ++
  "3. Is the code well-structured and follows best practices?\n" ++
  "4. Are tests adequate and do they cover the main scenarios?\n" ++
  "5. Are there any security vulnerabilities (injection, auth bypass, etc.)?\n" ++
  "\n" ++
  "Be thorough but practical. Focus on issues that would affect correctness,\n" ++
  "security, or maintainability.\n" ++
  "\n" ++
  "Respond with ONLY valid JSON in this exact format:\n" ++
  "\x7b\n" ++
  "  \"verdict\": \"PASS\" | \"FAIL\" | \"NEEDS_HUMAN\",\n" ++
  "  \"confidence\": 0.0-1.0,\n" ++
  "  \"issues\": [\"issue1\", \"issue2\"],\n" ++
  "  \"suggestions\": [\"suggestion1\", \"suggestion2\"]\n" ++
  "\x7d\n" ++
  "\n" ++
  "Where:\n" ++
  "- PASS: Work meets requirements and has no blocking issues\n" ++
  "- FAIL: Work has bugs, security issues, or doesn\x27t meet requirements\n" ++
  "- NEEDS_HUMAN: Unable to determine, requires human review\n" ++
  "\n" ++
  "Only include issues that are actual problems. Suggestions are for improvements\n" ++
  "that don\x27t block approval."

/-- The method `buildMRPrompt`. -/
def buildMRPrompt (mrID branch targetBranch workdir : String) : String :=
  "You are a code reviewer performing independent verification of a merge request.\n" ++
  "Review the changes between the source and target branches.\n" ++
  "\n" ++
  "MR ID: " ++ mrID ++ "\n" ++
  "Source Branch: " ++ branch ++ "\n" ++
  "Target Branch: " ++ targetBranch ++ "\n" ++
  "Working Directory: " ++ workdir ++ "\n" ++
  "\n" ++
  "To see the changes, run:\n" ++
  "  git diff " ++ targetBranch ++ "..." ++ branch ++ "\n" ++
  "\n" ++
  "Review the changes for:\n" ++
  "1. Does the code meet the requirements?\n" ++
  "2. Are there any bugs, edge cases, or error handling issues?\n" ++
  "3. Is the code well-structured and follows best practices?\n" ++
  "4. Are tests adequate and do they cover the main scenarios?\n" ++
  "5. Are there any security vulnerabilities?\n" ++
  "6. Will this merge cleanly with no conflicts?\n" ++
  "\n" ++
  "Be thorough but practical. Focus on issues that would affect correctness,\n" ++
  "security, or maintainability.\n" ++
  "\n" ++
  "Respond with ONLY valid JSON in this exact format:\n" ++
  "\x7b\n" ++
  "  \"verdict\": \"PASS\" | \"FAIL\" | \"NEEDS_HUMAN\",\n" ++
  "  \"confidence\": 0.0-1.0,\n" ++
  "  \"issues\": [\"issue1\", \"issue2\"],\n" ++
  "  \"suggestions\": [\"suggestion1\", \"suggestion2\"]\n" ++
  "\x7d\n" ++
  "\n" ++
  "Where:\n" ++
  "- PASS: Changes are ready to merge\n" ++
  "- FAIL: Changes have blocking issues\n" ++
  "- NEEDS_HUMAN: Unable to determine, requires human review"

/-! ## Traces of external calls -/

/-- One call that leaves the pure code: a tracker lookup, a launch of the
reviewing tool, or a call from the verification gate into the auditor. -/
inductive Call where
  | TrackerShow (beadID : String)
  | RuntimeExecute (runtime : String) (ctx : Context) (prompt workdir : String)
  | AuditorVerify (ctx : Context) (beadID workdir : String)
  | AuditorVerifyMR (ctx : Context) (mrID branch targetBranch workdir : String)
  deriving DecidableEq, Repr

/-- A returned value together with the calls made while computing it, oldest
first. -/
structure Traced (α : Type) where
  ret : α
  trace : List Call

/-! ## The auditor -/

/-- The struct `Auditor`: the runtime (possibly nil) and the tracker. -/
structure Auditor where
  runtime : Option Runtime
  beadsDB : Beads

/-- The method `RuntimeName` of the auditor. -/
def Auditor.RuntimeName (a : Auditor) : String :=
  match a.runtime with
  | none => ""
  | some rt => rt.Name

/-- The clamp of lines 334 to 340 of `parseResponse`, on its own. -/
def clampConfidence (c : ℚ) : ℚ :=
  let c := if c < 0 then 0 else c
  if c > 1 then 1 else c

/-- The method `parseResponse`. Go returns `(nil, err)` or `(result, nil)`. -/
def parseResponse (lib : GoLib) (response beadID : String) :
    Except GoError VerificationResult :=
  let result : VerificationResult := { BeadID := beadID }
  let jsonStr := extractJSON response
  if jsonStr = "" then
    .error (.wrap (ErrParseResponse.Error ++ ": no JSON found in response") ErrParseResponse)
  else
    match lib.Unmarshal jsonStr with
    | .error err =>
      .error (.wrap (ErrParseResponse.Error ++ ": " ++ err.Error) ErrParseResponse)
    | .ok parsed =>
      let result :=
        if ToUpper lib parsed.Verdict = "PASS" then { result with Verdict := VerdictPass }
        else if ToUpper lib parsed.Verdict = "FAIL" then { result with Verdict := VerdictFail }
        else if ToUpper lib parsed.Verdict = "NEEDS_HUMAN" then
          { result with Verdict := VerdictNeedsHuman }
        else
          { result with
            Verdict := VerdictNeedsHuman
            Issues := result.Issues ++ ["Unknown verdict: " ++ parsed.Verdict] }
      let result := { result with Confidence := clampConfidence parsed.Confidence }
      let result := { result with Issues := parsed.Issues }
      let result := { result with Suggestions := parsed.Suggestions }
      .ok result

/-- The method `Auditor.Verify`. Go returns `(nil, err)` or `(result, nil)`. -/
def Auditor.Verify (a : Auditor) (lib : GoLib) (clk : Clock) (ctx : Context)
    (beadID workdir : String) : Traced (Except GoError VerificationResult) :=
  match a.runtime with
  | none => ⟨.error ErrNoRuntime, []⟩
  | some rt =>
    let startTime := clk 0
    match a.beadsDB.Show beadID with
    | .error err =>
      if errorsIs err a.beadsDB.ErrNotFound then
        ⟨.error (.wrap (ErrBeadNotFound.Error ++ ": " ++ beadID) ErrBeadNotFound),
          [.TrackerShow beadID]⟩
      else
        ⟨.error (.wrap ("fetching bead: " ++ err.Error) err), [.TrackerShow beadID]⟩
    | .ok bead =>
      let prompt := buildPrompt bead workdir
      let trace := [Call.TrackerShow beadID, Call.RuntimeExecute rt.Name ctx prompt workdir]
      match rt.Execute ctx prompt workdir with
      | .error err =>
        ⟨.ok { BeadID := beadID
               Verdict := VerdictNeedsHuman
               Confidence := 0
               Issues := ["Verification execution failed: " ++ err.Error]
               ReviewedBy := rt.Name
               ReviewedAt := clk 1
               Duration := clk 2 - startTime }, trace⟩
      | .ok response =>
        let result : VerificationResult :=
          match parseResponse lib response beadID with
          | .ok result => result
          | .error err =>
            { BeadID := beadID
              Verdict := VerdictNeedsHuman
              Confidence := 0
              Issues := ["Failed to parse verification response", err.Error] }
        ⟨.ok { result with
               ReviewedBy := rt.Name
               ReviewedAt := clk 1
               Duration := clk 2 - startTime }, trace⟩

/-- The method `Auditor.VerifyMR`. Go returns `(nil, err)` or `(result, nil)`. -/
def Auditor.VerifyMR (a : Auditor) (lib : GoLib) (clk : Clock) (ctx : Context)
    (mrID branch targetBranch workdir : String) :
    Traced (Except GoError VerificationResult) :=
  match a.runtime with
  | none => ⟨.error ErrNoRuntime, []⟩
  | some rt =>
    let startTime := clk 0
    let prompt := buildMRPrompt mrID branch targetBranch workdir
    let trace := [Call.RuntimeExecute rt.Name ctx prompt workdir]
    match rt.Execute ctx prompt workdir with
    | .error err =>
      ⟨.ok { BeadID := mrID
             Verdict := VerdictNeedsHuman
             Confidence := 0
             Issues := ["Verification execution failed: " ++ err.Error]
             ReviewedBy := rt.Name
             ReviewedAt := clk 1
             Duration := clk 2 - startTime }, trace⟩
    | .ok response =>
      let result : VerificationResult :=
        match parseResponse lib response mrID with
        | .ok result => result
        | .error _ =>
          { BeadID := mrID
            Verdict := VerdictNeedsHuman
            Confidence := 0
            Issues := ["Failed to parse verification response"] }
      ⟨.ok { result with
             ReviewedBy := rt.Name
             ReviewedAt := clk 1
             Duration := clk 2 - startTime }, trace⟩

/-! ## Package refinery: the verification gate -/

/-- The Go type `VerificationStatus`, a string. -/
abbrev VerificationStatus := String

/-- The constant `VerificationPending`. -/
def VerificationPending : VerificationStatus := "pending"

/-- The constant `VerificationVerified`. -/
def VerificationVerified : VerificationStatus := "verified"

/-- The constant `VerificationRejected`. -/
def VerificationRejected : VerificationStatus := "rejected"

/-- The constant `VerificationNeedsReview`. -/
def VerificationNeedsReview : VerificationStatus := "needs_review"

/-- The constant `VerificationSkipped`. -/
def VerificationSkipped : VerificationStatus := "skipped"

/-- The struct `VerificationInfo`; `VerifiedAt` is a pointer, `none` is nil. -/
structure VerificationInfo where
  Status : VerificationStatus := ""
  ReviewedBy : String := ""
  Confidence : ℚ := 0
  Issues : List String := []
  Suggestions : List String := []
  VerifiedAt : Option Int := none
  deriving DecidableEq, Repr

/-- Modelled from the spec: the struct `MergeRequest` is declared in a file of
package refinery that is not among the sources; the verification gate reads
its id, its source branch and its target branch. -/
structure MergeRequest where
  ID : String
  Branch : String
  TargetBranch : String
  deriving DecidableEq, Repr

/-- The struct `VerificationGate` (the registry field is never read by the
operations below and is left out). -/
structure VerificationGate where
  auditor : Auditor
  config : VerificationConfig

/-- The method `RuntimeName` of the verification gate. -/
def VerificationGate.RuntimeName (g : VerificationGate) : String := g.auditor.RuntimeName

/-- The timeout context of lines 128 to 133 and 186 to 191: a child deadline
when `TimeoutSeconds` is positive (`time.Second` is 1000000000 ns). -/
def VerificationGate.timeoutContext (g : VerificationGate) (ctx : Context) : Context :=
  if g.config.TimeoutSeconds > 0 then
    ctx.WithTimeout (wrapInt64 (g.config.TimeoutSeconds * 1000000000))
  else ctx

/-- The method `VerificationGate.VerifyMR`; the pair is Go's `(info, err)`. -/
def VerificationGate.VerifyMR (g : VerificationGate) (lib : GoLib) (clk : Clock)
    (ctx : Context) (mr : MergeRequest) (workdir : String) :
    Traced (VerificationInfo × Option GoError) :=
  if !g.config.Enabled then
    ⟨({ Status := VerificationSkipped }, none), []⟩
  else
    let ctx := g.timeoutContext ctx
    let out := g.auditor.VerifyMR lib clk ctx mr.ID mr.Branch mr.TargetBranch workdir
    let trace := Call.AuditorVerifyMR ctx mr.ID mr.Branch mr.TargetBranch workdir :: out.trace
    match out.ret with
    | .error err =>
      ⟨({ Status := VerificationNeedsReview
          Issues := ["Verification error: " ++ err.Error] }, some err), trace⟩
    | .ok result =>
      let info : VerificationInfo :=
        { ReviewedBy := result.ReviewedBy
          Confidence := result.Confidence
          Issues := result.Issues
          Suggestions := result.Suggestions }
      let now := result.ReviewedAt
      let info := { info with VerifiedAt := some now }
      let info :=
        if result.Verdict = VerdictPass then
          if result.Confidence ≥ g.config.RequiredConfidence then
            { info with Status := VerificationVerified }
          else
            { info with
              Status := VerificationNeedsReview
              Issues := info.Issues ++
                ["Confidence " ++ fmtFixed2 result.Confidence ++ " below threshold " ++
                  fmtFixed2 g.config.RequiredConfidence] }
        else if result.Verdict = VerdictFail then
          { info with Status := VerificationRejected }
        else if result.Verdict = VerdictNeedsHuman then
          { info with Status := VerificationNeedsReview }
        else info
      ⟨(info, none), trace⟩

/-- The method `VerificationGate.VerifyBead`; the pair is Go's `(info, err)`. -/
def VerificationGate.VerifyBead (g : VerificationGate) (lib : GoLib) (clk : Clock)
    (ctx : Context) (beadID workdir : String) :
    Traced (VerificationInfo × Option GoError) :=
  if !g.config.Enabled then
    ⟨({ Status := VerificationSkipped }, none), []⟩
  else
    let ctx := g.timeoutContext ctx
    let out := g.auditor.Verify lib clk ctx beadID workdir
    let trace := Call.AuditorVerify ctx beadID workdir :: out.trace
    match out.ret with
    | .error err =>
      ⟨({ Status := VerificationNeedsReview
          Issues := ["Verification error: " ++ err.Error] }, some err), trace⟩
    | .ok result =>
      let info : VerificationInfo :=
        { ReviewedBy := result.ReviewedBy
          Confidence := result.Confidence
          Issues := result.Issues
          Suggestions := result.Suggestions }
      let now := result.ReviewedAt
      let info := { info with VerifiedAt := some now }
      let info :=
        if result.Verdict = VerdictPass then
          if result.Confidence ≥ g.config.RequiredConfidence then
            { info with Status := VerificationVerified }
          else
            { info with Status := VerificationNeedsReview }
        else if result.Verdict = VerdictFail then
          { info with Status := VerificationRejected }
        else if result.Verdict = VerdictNeedsHuman then
          { info with Status := VerificationNeedsReview }
        else info
      ⟨(info, none), trace⟩

/-- The method `CanProceed`; `none` is a nil pointer. -/
def CanProceed (info : Option VerificationInfo) : Bool :=
  match info with
  | none => false
  | some info => info.Status == VerificationVerified || info.Status == VerificationSkipped

/-- The method `ShouldSlingBack`; `none` is a nil pointer. -/
def ShouldSlingBack (info : Option VerificationInfo) : Bool :=
  match info with
  | none => false
  | some info => info.Status == VerificationRejected

/-- The method `ShouldEscalate`; `none` is a nil pointer. -/
def ShouldEscalate (info : Option VerificationInfo) : Bool :=
  match info with
  | none => true
  | some info => info.Status == VerificationNeedsReview

/-! ## Package agent: the three tools and the registry -/

/-- What one run of an external command leaves behind: the text written to
standard output and to standard error, and the error of `cmd.Run()`, `none`
when the command exited with status 0. -/
structure CmdResult where
  stdout : String
  stderr : String
  err : Option GoError

/-- The operating system as package agent uses it: `LookPath name` tells
whether `exec.LookPath(name)` succeeds, `Run ctx tool args dir` is the outcome
of running `tool` with `args` in directory `dir` under `ctx`. -/
structure Host where
  LookPath : String → Bool
  Run : Context → String → List String → String → CmdResult

/-- The body shared by the three `Execute` methods, which differ in the tool
and in its flag only: run the tool, and on failure report standard error when
there is any, the error of the run otherwise. -/
def runTool (h : Host) (tool flag : String) (ctx : Context) (prompt workdir : String) :
    Except GoError String :=
  let out := h.Run ctx tool [flag, prompt] workdir
  match out.err with
  | some err =>
    if out.stderr.length > 0 then
      .error (.new (tool ++ " execution failed: " ++ out.stderr))
    else
      .error (.wrap (tool ++ " execution failed: " ++ err.Error) err)
  | none => .ok out.stdout

/-- The type `ClaudeRuntime`. -/
def ClaudeRuntime (h : Host) : Runtime :=
  { Name := "claude", Execute := runTool h "claude" "-p", Available := h.LookPath "claude" }

/-- The type `CodexRuntime`. -/
def CodexRuntime (h : Host) : Runtime :=
  { Name := "codex", Execute := runTool h "codex" "-q", Available := h.LookPath "codex" }

/-- The type `OpenCodeRuntime`. -/
def OpenCodeRuntime (h : Host) : Runtime :=
  { Name := "opencode", Execute := runTool h "opencode" "-p",
    Available := h.LookPath "opencode" }

/-- The struct `RuntimeRegistry`: the Go map from names to runtimes, kept as an
association list with distinct keys. The order of the entries stands for the
iteration order of the map, which Go leaves unspecified. The mutex is not
modelled. -/
structure RuntimeRegistry where
  runtimes : AList (fun _ : String => Runtime)

/-- The method `Register`: the assignment `r.runtimes[rt.Name()] = rt`. -/
def RuntimeRegistry.Register (r : RuntimeRegistry) (rt : Runtime) : RuntimeRegistry :=
  { runtimes := r.runtimes.insert rt.Name rt }

/-- The function `NewRuntimeRegistry`: each of the three runtimes is entered
when it is available. -/
def NewRuntimeRegistry (h : Host) : RuntimeRegistry :=
  let allRuntimes := [ClaudeRuntime h, CodexRuntime h, OpenCodeRuntime h]
  allRuntimes.foldl
    (fun r rt => if rt.Available then { runtimes := r.runtimes.insert rt.Name rt } else r)
    { runtimes := ∅ }

/-- The method `Get`: the pair `(rt, ok)` of a map lookup, `none` for nil. -/
def RuntimeRegistry.Get (r : RuntimeRegistry) (name : String) : Option Runtime × Bool :=
  (r.runtimes.lookup name, (r.runtimes.lookup name).isSome)

/-- The method `List`: the names in the map. -/
def RuntimeRegistry.List (r : RuntimeRegistry) : List String := r.runtimes.keys

/-- The method `GetForRole`; `none` is the nil runtime. -/
def RuntimeRegistry.GetForRole (r : RuntimeRegistry) (role : String) : Option Runtime :=
  let byDefault : Option Runtime :=
    match r.runtimes.lookup "claude" with
    | some rt => some rt
    | none => none
  if role = "auditor" then
    match r.runtimes.lookup "codex" with
    | some rt => some rt
    | none =>
      match r.runtimes.lookup "opencode" with
      | some rt => some rt
      | none =>
        match r.runtimes.lookup "claude" with
        | some rt => some rt
        | none => byDefault
  else byDefault

/-- The method `HasRuntime`. -/
def RuntimeRegistry.HasRuntime (r : RuntimeRegistry) (name : String) : Bool :=
  (r.runtimes.lookup name).isSome

/-! ## Constructors of the auditor and of the verification gate -/

/-- The function `auditor.New` (the struct field `registry`, which no method
reads, is not kept). -/
def New (registry : RuntimeRegistry) (db : Beads) : Except GoError Auditor :=
  match registry.GetForRole "auditor" with
  | none => .error ErrNoRuntime
  | some runtime => .ok { runtime := some runtime, beadsDB := db }

/-- The function `auditor.NewWithRuntime`. -/
def NewWithRuntime (runtime : Option Runtime) (db : Beads) : Auditor :=
  { runtime := runtime, beadsDB := db }

/-- The function `NewVerificationGate`; `beadsNew` is `beads.New`, which is
not among the sources. -/
def NewVerificationGate (h : Host) (beadsNew : String → Beads) (workdir : String) :
    Except GoError VerificationGate :=
  let registry := NewRuntimeRegistry h
  let db := beadsNew workdir
  match New registry db with
  | .error err => .error err
  | .ok aud => .ok { auditor := aud, config := DefaultVerificationConfig }

/-- The function `NewVerificationGateWithConfig`. -/
def NewVerificationGateWithConfig (h : Host) (beadsNew : String → Beads) (workdir : String)
    (config : VerificationConfig) : Except GoError VerificationGate :=
  let registry := NewRuntimeRegistry h
  let db := beadsNew workdir
  match New registry db with
  | .error err => .error err
  | .ok aud => .ok { auditor := aud, config := config }

/-! ## Package cmd: the command `gt verify require` -/

/-- Modelled from the spec: the type `SilentExitError` and the step from the
error a command returns to the exit code of the process are declared outside
the sources. A command returns nil (`none`), a `SilentExitError` carrying its
code, or another error. -/
inductive CmdError where
  | SilentExitError (Code : Int)
  | other (err : GoError)
  deriving DecidableEq, Repr

/-- Modelled from the spec: the exit code of the process, as the help text of
the command lists it: 0 for a nil error, the code of a `SilentExitError`, and 1
for any other error. -/
def exitCode : Option CmdError → Int
  | none => 0
  | some (.SilentExitError code) => code
  | some (.other _) => 1

/-- The loop over `bead.Labels` of `runVerifyRequire`: is there a label that
marks the bead as verified. -/
def alreadyVerified (labels : List String) : Bool :=
  labels.any (fun label => label == "verified" || label == "verification-passed")

/-- The function `runVerifyRequire`, its printing left out. `getwd` is the
outcome of `os.Getwd()`, `verifyForce` and `verifyTimeout` are the flags of the
command, `beadID` is `args[0]`. -/
def runVerifyRequire (h : Host) (beadsNew : String → Beads) (getwd : Except GoError String)
    (verifyForce : Bool) (verifyTimeout : Int) (lib : GoLib) (clk : Clock)
    (beadID : String) : Option CmdError :=
  match getwd with
  | .error err => some (.other (.wrap ("getting working directory: " ++ err.Error) err))
  | .ok cwd =>
    let registry := NewRuntimeRegistry h
    let db := beadsNew cwd
    match New registry db with
    | .error _ => some (.SilentExitError 1)
    | .ok aud =>
      let verified : Bool :=
        if !verifyForce then
          match db.Show beadID with
          | .ok bead => alreadyVerified bead.Labels
          | .error _ => false
        else false
      if verified then none
      else
        let ctx := ({ budget := none } : Context).WithTimeout verifyTimeout
        match (aud.Verify lib clk ctx beadID cwd).ret with
        | .error _ => some (.SilentExitError 1)
        | .ok result =>
          if result.Verdict = VerdictPass then none
          else if result.Verdict = VerdictFail then some (.SilentExitError 1)
          else if result.Verdict = VerdictNeedsHuman then some (.SilentExitError 2)
          else none

/-! ## Sample collaborators, used to run the operations on concrete inputs -/

/-- A decoding table: the value `json.Unmarshal` stores for a few response
objects, and a syntax error for any other text. -/
def sampleUnmarshal (s : String) : Except GoError Parsed :=
  if s = "\x7b\"verdict\":\"PASS\",\"confidence\":0.92,\"issues\":[],\"suggestions\":[\"add tests\"]\x7d" then
    .ok { Verdict := "PASS", Confidence := 23 / 25, Issues := [], Suggestions := ["add tests"] }
  else if s = "\x7b\"verdict\":\"PASS\",\"confidence\":0.5,\"issues\":[\"naming\"]\x7d" then
    .ok { Verdict := "PASS", Confidence := 1 / 2, Issues := ["naming"] }
  else if s = "\x7b\"verdict\":\"fail\",\"confidence\":0.99\x7d" then
    .ok { Verdict := "fail", Confidence := 99 / 100 }
  else if s = "\x7b\"verdict\":\"pass\",\"confidence\":1.7\x7d" then
    .ok { Verdict := "pass", Confidence := 17 / 10 }
  else if s = "\x7b\"verdict\":\"Fail\",\"confidence\":-0.3\x7d" then
    .ok { Verdict := "Fail", Confidence := -3 / 10 }
  else if s = "\x7b\"verdict\":\"needs_human\",\"confidence\":0.4\x7d" then
    .ok { Verdict := "needs_human", Confidence := 2 / 5 }
  else if s = "\x7b\"verdict\":\"MAYBE\",\"confidence\":0.5,\"issues\":[\"unsure\"]\x7d" then
    .ok { Verdict := "MAYBE", Confidence := 1 / 2, Issues := ["unsure"] }
  else if s = "\x7b\x7d" then
    .ok {}
  else .error (.new "invalid character in JSON text")

/-- A library whose decoder is the table above. -/
def sampleLib : GoLib := { Unmarshal := sampleUnmarshal, unicodeUpper := fun c => c }

/-- A runtime named codex whose tool answers every prompt with `out`. -/
def sampleRuntime (out : Except GoError String) : Runtime :=
  { Name := "codex", Execute := fun _ _ _ => out, Available := true }

/-- A tracker that knows the single bead gt-1. -/
def sampleBeads : Beads :=
  { Show := fun id =>
      if id = "gt-1" then
        .ok { ID := "gt-1", Title := "Add retry", Description := "Retry failed fetches" }
      else .error (.new "issue not found")
    ErrNotFound := .new "issue not found" }

/-- A verification gate over the sample runtime and tracker. -/
def sampleGate (cfg : VerificationConfig) (out : Except GoError String) : VerificationGate :=
  { auditor := { runtime := some (sampleRuntime out), beadsDB := sampleBeads }, config := cfg }

/-- A clock that advances by one second per reading. -/
def sampleClock : Clock := fun k => 1000000000 * (k : Int)

/-- A merge request of the polecat branch into main. -/
def sampleMR : MergeRequest := { ID := "gt-1", Branch := "polecat/gt-1", TargetBranch := "main" }

/-- A context without deadline. -/
def background : Context := { budget := none }

/-- The configuration with verification switched off. -/
def disabledConfig : VerificationConfig := { DefaultVerificationConfig with Enabled := false }

/-- A host on which exactly the tools named in `tools` are installed and every
run succeeds silently. -/
def hostWith (tools : List String) : Host :=
  { LookPath := fun name => decide (name ∈ tools)
    Run := fun _ _ _ _ => { stdout := "", stderr := "", err := none } }

/-- A custom runtime, named gemini, that answers every prompt with `out`. -/
def geminiRuntime (out : Except GoError String) : Runtime :=
  { Name := "gemini", Execute := fun _ _ _ => out, Available := true }

/-- The registry with no entry. -/
def emptyRegistry : RuntimeRegistry := { runtimes := ∅ }

/-- The reading of the trace: was the reviewing tool launched. -/
def Call.isExecute : Call → Bool
  | .RuntimeExecute _ _ _ _ => true
  | _ => false

/-- A host on which exactly the tools named in `tools` are installed and every
run prints `answer` and exits with status 0. -/
def answeringHost (tools : List String) (answer : String) : Host :=
  { LookPath := fun name => decide (name ∈ tools)
    Run := fun _ _ _ _ => { stdout := answer, stderr := "", err := none } }

/-- A verdict object whose only issue holds an opening brace inside its
string. -/
def braceInIssue : String :=
  "\x7b\"verdict\":\"PASS\",\"confidence\":1,\"issues\":[\"unbalanced \x7b in log\"],\"suggestions\":[]\x7d"

/-- A decoding table that knows the object `braceInIssue`, a well-formed JSON
text, next to the texts of `sampleUnmarshal`. -/
def braceUnmarshal (s : String) : Except GoError Parsed :=
  if s = braceInIssue then
    .ok { Verdict := "PASS", Confidence := 1, Issues := ["unbalanced \x7b in log"],
          Suggestions := [] }
  else sampleUnmarshal s

/-- A library whose decoder is `braceUnmarshal`. -/
def braceLib : GoLib := { Unmarshal := braceUnmarshal, unicodeUpper := fun c => c }

/-! ## Brace depth, the vocabulary of the extraction properties -/

/-- The change of brace depth a character causes. -/
def braceDelta (c : Char) : Int :=
  if c = lbrace then 1 else if c = rbrace then -1 else 0

/-- The running brace depth at the end of a run of characters. -/
def depthOf (l : List Char) : Int := (l.map braceDelta).sum

/-- A properly nested brace group: it starts with an opening brace, every
proper non-empty prefix has positive depth, and the whole has depth 0. -/
def ProperlyNested (obj : List Char) : Prop :=
  obj.head? = some lbrace ∧
  (∀ n, n < obj.length → 1 ≤ n → 0 < depthOf (obj.take n)) ∧
  depthOf obj = 0

instance (obj : List Char) : Decidable (ProperlyNested obj) := by
  unfold ProperlyNested; infer_instance

/-- The reading of the doc comment of `extractJSON`: the text running from the
first opening brace to the last closing brace after it, empty when either is
missing. -/
def sliceFirstToLast (l : List Char) : List Char :=
  ((l.dropWhile (fun c => c != lbrace)).reverse.dropWhile (fun c => c != rbrace)).reverse

/-- Two tokens are equal up to letter case when Go's upper-casing maps them to
the same string. -/
def EqualUpToCase (lib : GoLib) (a b : String) : Prop := ToUpper lib a = ToUpper lib b

/-- An ASCII case variant of `target`: turning the letters a to z of `tok` into
capitals gives `target`. -/
def AsciiCaseVariant (tok target : String) : Prop := tok.data.map Char.toUpper = target.data

instance (tok target : String) : Decidable (AsciiCaseVariant tok target) := by
  unfold AsciiCaseVariant; infer_instance

instance (lib : GoLib) (a b : String) : Decidable (EqualUpToCase lib a b) := by
  unfold EqualUpToCase; infer_instance

/-! ## The decision predicates -/

/-- Claim C5: `CanProceed` holds exactly of a non-nil info whose status is
verified or skipped, `ShouldSlingBack` exactly of a non-nil info whose status
is rejected, `ShouldEscalate` exactly of nil and of an info whose status is
needs_review; at nil `CanProceed` is false and `ShouldEscalate` is true. -/
theorem decision_predicates_characterised (info : Option VerificationInfo) :
    (CanProceed info = true ↔
      ∃ i, info = some i ∧ (i.Status = VerificationVerified ∨ i.Status = VerificationSkipped)) ∧
    (ShouldSlingBack info = true ↔ ∃ i, info = some i ∧ i.Status = VerificationRejected) ∧
    (ShouldEscalate info = true ↔
      info = none ∨ ∃ i, info = some i ∧ i.Status = VerificationNeedsReview) ∧
    CanProceed none = false ∧ ShouldEscalate none = true := by
  cases info with
  | none => simp [CanProceed, ShouldSlingBack, ShouldEscalate]
  | some i => simp [CanProceed, ShouldSlingBack, ShouldEscalate]

/-- Claim C6, what fails: at the declared status pending none of the three
predicates holds, so their disjunction is not true for every status value. -/
theorem pending_has_no_decision :
    CanProceed (some { Status := VerificationPending }) = false ∧
    ShouldSlingBack (some { Status := VerificationPending }) = false ∧
    ShouldEscalate (some { Status := VerificationPending }) = false := by
  decide

/-- Claim C6, amended: the three predicates are pairwise exclusive for every
status value and for nil; one of them holds exactly when the info is nil or
its status is verified, skipped, rejected or needs_review. -/
theorem decision_predicates_exclusive (info : Option VerificationInfo) :
    ¬ (CanProceed info = true ∧ ShouldSlingBack info = true) ∧
    ¬ (CanProceed info = true ∧ ShouldEscalate info = true) ∧
    ¬ (ShouldSlingBack info = true ∧ ShouldEscalate info = true) ∧
    ((CanProceed info = true ∨ ShouldSlingBack info = true ∨ ShouldEscalate info = true) ↔
      (info = none ∨ ∃ i, info = some i ∧
        (i.Status = VerificationVerified ∨ i.Status = VerificationSkipped ∨
          i.Status = VerificationRejected ∨ i.Status = VerificationNeedsReview))) := by
  cases info with
  | none => simp [CanProceed, ShouldSlingBack, ShouldEscalate]
  | some i =>
    simp only [CanProceed, ShouldSlingBack, ShouldEscalate, Bool.or_eq_true, beq_iff_eq]
    refine ⟨?_, ?_, ?_, ?_⟩
    · rintro ⟨h | h, h2⟩ <;> rw [h] at h2 <;> revert h2 <;> decide
    · rintro ⟨h | h, h2⟩ <;> rw [h] at h2 <;> revert h2 <;> decide
    · rintro ⟨h, h2⟩; rw [h] at h2; revert h2; decide
    · constructor
      · rintro (h | h | h)
        · rcases h with h | h
          · exact Or.inr ⟨i, rfl, Or.inl h⟩
          · exact Or.inr ⟨i, rfl, Or.inr (Or.inl h)⟩
        · exact Or.inr ⟨i, rfl, Or.inr (Or.inr (Or.inl h))⟩
        · exact Or.inr ⟨i, rfl, Or.inr (Or.inr (Or.inr h))⟩
      · rintro (h | ⟨j, hj, h⟩)
        · cases h
        · cases hj
          rcases h with h | h | h | h
          · exact Or.inl (Or.inl h)
          · exact Or.inl (Or.inr h)
          · exact Or.inr (Or.inl h)
          · exact Or.inr (Or.inr h)

/-! ## The policy of the verification gate -/

/-- Claim C1: with verification enabled, the status returned by `VerifyMR` and
by `VerifyBead` for an auditor result `r` is one function of `r.Verdict`,
`r.Confidence` and the configuration, and that function is verified at PASS
with confidence at least the threshold, needs_review at PASS below it,
rejected at FAIL and needs_review at NEEDS_HUMAN. -/
theorem gate_status_policy :
    ∃ f : Verdict → ℚ → VerificationConfig → VerificationStatus,
      (∀ c cfg, c ≥ cfg.RequiredConfidence → f VerdictPass c cfg = VerificationVerified) ∧
      (∀ c cfg, c < cfg.RequiredConfidence → f VerdictPass c cfg = VerificationNeedsReview) ∧
      (∀ c cfg, f VerdictFail c cfg = VerificationRejected) ∧
      (∀ c cfg, f VerdictNeedsHuman c cfg = VerificationNeedsReview) ∧
      (∀ (g : VerificationGate) (lib : GoLib) (clk : Clock) (ctx : Context)
          (mr : MergeRequest) (workdir : String) (r : VerificationResult),
        g.config.Enabled = true →
        (g.auditor.VerifyMR lib clk (g.timeoutContext ctx) mr.ID mr.Branch mr.TargetBranch
          workdir).ret = .ok r →
        (g.VerifyMR lib clk ctx mr workdir).ret.1.Status = f r.Verdict r.Confidence g.config ∧
        (g.VerifyMR lib clk ctx mr workdir).ret.2 = none) ∧
      (∀ (g : VerificationGate) (lib : GoLib) (clk : Clock) (ctx : Context)
          (beadID workdir : String) (r : VerificationResult),
        g.config.Enabled = true →
        (g.auditor.Verify lib clk (g.timeoutContext ctx) beadID workdir).ret = .ok r →
        (g.VerifyBead lib clk ctx beadID workdir).ret.1.Status =
          f r.Verdict r.Confidence g.config ∧
        (g.VerifyBead lib clk ctx beadID workdir).ret.2 = none) := by
  refine ⟨fun v c cfg =>
    if v = VerdictPass then
      if c ≥ cfg.RequiredConfidence then VerificationVerified else VerificationNeedsReview
    else if v = VerdictFail then VerificationRejected
    else if v = VerdictNeedsHuman then VerificationNeedsReview
    else "", ?_, ?_, ?_, ?_, ?_, ?_⟩
  · intro c cfg h
    simp [h]
  · intro c cfg h
    simp [not_le.mpr h]
  · intro c cfg
    have h : VerdictFail ≠ VerdictPass := by decide
    simp [h]
  · intro c cfg
    have h1 : VerdictNeedsHuman ≠ VerdictPass := by decide
    have h2 : VerdictNeedsHuman ≠ VerdictFail := by decide
    simp [h1, h2]
  · intro g lib clk ctx mr workdir r hen hr
    simp only [VerificationGate.VerifyMR, hen, hr]
    constructor
    · simp only [Bool.not_true, Bool.false_eq_true, if_false]
      split_ifs <;> rfl
    · rfl
  · intro g lib clk ctx beadID workdir r hen hr
    simp only [VerificationGate.VerifyBead, hen, hr]
    constructor
    · simp only [Bool.not_true, Bool.false_eq_true, if_false]
      split_ifs <;> rfl
    · rfl

/-- Claim C3, with its failing input. For a PASS below the threshold
`VerifyMR` returns the issues of the auditor followed by the one appended
confidence issue, the two numbers printed to two decimals. `VerifyBead` never
appends: its issues are always those of the auditor. At the input where the
reviewing tool answers PASS with confidence 0.5 and one issue and the
threshold is 0.7, `VerifyMR` ends its issues with the text mentioning 0.50 and
0.70, while `VerifyBead` returns needs_review with the single issue of the
auditor. -/
theorem verifyBead_omits_confidence_issue :
    (∀ (g : VerificationGate) (lib : GoLib) (clk : Clock) (ctx : Context)
        (mr : MergeRequest) (workdir : String) (r : VerificationResult),
      g.config.Enabled = true →
      (g.auditor.VerifyMR lib clk (g.timeoutContext ctx) mr.ID mr.Branch mr.TargetBranch
        workdir).ret = .ok r →
      r.Verdict = VerdictPass → r.Confidence < g.config.RequiredConfidence →
      (g.VerifyMR lib clk ctx mr workdir).ret.1.Issues =
        r.Issues ++ ["Confidence " ++ fmtFixed2 r.Confidence ++ " below threshold " ++
          fmtFixed2 g.config.RequiredConfidence]) ∧
    (∀ (g : VerificationGate) (lib : GoLib) (clk : Clock) (ctx : Context)
        (beadID workdir : String) (r : VerificationResult),
      g.config.Enabled = true →
      (g.auditor.Verify lib clk (g.timeoutContext ctx) beadID workdir).ret = .ok r →
      (g.VerifyBead lib clk ctx beadID workdir).ret.1.Issues = r.Issues) ∧
    (((sampleGate DefaultVerificationConfig
        (.ok "\x7b\"verdict\":\"PASS\",\"confidence\":0.5,\"issues\":[\"naming\"]\x7d")).VerifyMR
        sampleLib sampleClock background sampleMR "/work").ret.1.Status = VerificationNeedsReview ∧
      ((sampleGate DefaultVerificationConfig
        (.ok "\x7b\"verdict\":\"PASS\",\"confidence\":0.5,\"issues\":[\"naming\"]\x7d")).VerifyMR
        sampleLib sampleClock background sampleMR "/work").ret.1.Issues =
        ["naming", "Confidence 0.50 below threshold 0.70"]) ∧
    (((sampleGate DefaultVerificationConfig
        (.ok "\x7b\"verdict\":\"PASS\",\"confidence\":0.5,\"issues\":[\"naming\"]\x7d")).VerifyBead
        sampleLib sampleClock background "gt-1" "/work").ret.1.Status = VerificationNeedsReview ∧
      ((sampleGate DefaultVerificationConfig
        (.ok "\x7b\"verdict\":\"PASS\",\"confidence\":0.5,\"issues\":[\"naming\"]\x7d")).VerifyBead
        sampleLib sampleClock background "gt-1" "/work").ret.1.Issues = ["naming"]) := by
  refine ⟨?_, ?_, ?_, ?_⟩
  · intro g lib clk ctx mr workdir r hen hr hv hlt
    simp only [VerificationGate.VerifyMR, hen, hr, hv]
    simp [not_le.mpr hlt]
  · intro g lib clk ctx beadID workdir r hen hr
    simp only [VerificationGate.VerifyBead, hen, hr]
    simp only [Bool.not_true, Bool.false_eq_true, if_false]
    split_ifs <;> rfl
  · with_unfolding_all decide
  · with_unfolding_all decide

/-- Claim C4: with verification disabled, `VerifyMR` and `VerifyBead` return
status skipped and no error, and make no call at all: neither the auditor nor
the tracker nor the reviewing tool is invoked, whatever they would answer. -/
theorem disabled_gate_skips (g : VerificationGate) (lib : GoLib) (clk : Clock)
    (ctx : Context) (mr : MergeRequest) (beadID workdir : String)
    (hoff : g.config.Enabled = false) :
    ((g.VerifyMR lib clk ctx mr workdir).ret = ({ Status := VerificationSkipped }, none) ∧
      (g.VerifyMR lib clk ctx mr workdir).trace = []) ∧
    ((g.VerifyBead lib clk ctx beadID workdir).ret = ({ Status := VerificationSkipped }, none) ∧
      (g.VerifyBead lib clk ctx beadID workdir).trace = []) := by
  simp [VerificationGate.VerifyMR, VerificationGate.VerifyBead, hoff]

/-- Claim C4 on a concrete input: the disabled sample gate skips, although its
tool would have answered FAIL. -/
theorem disabled_gate_skips_witness :
    (((sampleGate disabledConfig (.ok "\x7b\"verdict\":\"fail\",\"confidence\":0.99\x7d")).VerifyMR
        sampleLib sampleClock background sampleMR "/work").ret =
        ({ Status := VerificationSkipped }, none) ∧
      ((sampleGate disabledConfig (.ok "\x7b\"verdict\":\"fail\",\"confidence\":0.99\x7d")).VerifyMR
        sampleLib sampleClock background sampleMR "/work").trace = []) ∧
    (((sampleGate disabledConfig (.ok "\x7b\"verdict\":\"fail\",\"confidence\":0.99\x7d")).VerifyBead
        sampleLib sampleClock background "gt-1" "/work").ret =
        ({ Status := VerificationSkipped }, none) ∧
      ((sampleGate disabledConfig (.ok "\x7b\"verdict\":\"fail\",\"confidence\":0.99\x7d")).VerifyBead
        sampleLib sampleClock background "gt-1" "/work").trace = []) :=
  disabled_gate_skips _ sampleLib sampleClock background sampleMR "gt-1" "/work" (by rfl)

/-- Claim C1 on a concrete input: PASS with confidence 0.92 under the default
threshold 0.7 is verified, by the policy function of the theorem. -/
theorem gate_status_policy_witness :
    ((sampleGate DefaultVerificationConfig
      (.ok "Looks fine.\n\x7b\"verdict\":\"PASS\",\"confidence\":0.92,\"issues\":[],\"suggestions\":[\"add tests\"]\x7d\nDone.")).VerifyMR
      sampleLib sampleClock background sampleMR "/work").ret.1.Status = VerificationVerified := by
  obtain ⟨f, hv, _, _, _, hmr, _⟩ := gate_status_policy
  have h := (hmr (sampleGate DefaultVerificationConfig
      (.ok "Looks fine.\n\x7b\"verdict\":\"PASS\",\"confidence\":0.92,\"issues\":[],\"suggestions\":[\"add tests\"]\x7d\nDone."))
    sampleLib sampleClock background sampleMR "/work" _ rfl rfl).1
  rw [h]
  exact hv _ _ (by with_unfolding_all decide)

/-! ## Normalisation in `parseResponse` -/

/-- A successful decode makes `parseResponse` succeed, with the fields below. -/
theorem parseResponse_of_decoded (lib : GoLib) (response beadID : String) (p : Parsed)
    (hj : extractJSON response ≠ "") (hdec : lib.Unmarshal (extractJSON response) = .ok p) :
    ∃ res, parseResponse lib response beadID = .ok res ∧
      res.BeadID = beadID ∧
      res.Confidence = clampConfidence p.Confidence ∧
      res.Issues = p.Issues ∧ res.Suggestions = p.Suggestions ∧
      res.Verdict =
        (if ToUpper lib p.Verdict = "PASS" then VerdictPass
         else if ToUpper lib p.Verdict = "FAIL" then VerdictFail
         else VerdictNeedsHuman) := by
  simp only [parseResponse, hj, if_false, hdec]
  split_ifs <;> exact ⟨_, rfl, rfl, rfl, rfl, rfl, rfl⟩

/-- A successful `parseResponse` comes from a successful decode. -/
theorem decoded_of_parseResponse (lib : GoLib) (response beadID : String)
    (res : VerificationResult) (h : parseResponse lib response beadID = .ok res) :
    extractJSON response ≠ "" ∧ ∃ p, lib.Unmarshal (extractJSON response) = .ok p := by
  unfold parseResponse at h
  by_cases hj : extractJSON response = ""
  · simp [hj] at h
  · refine ⟨hj, ?_⟩
    cases hdec : lib.Unmarshal (extractJSON response) with
    | error e => simp [hj, hdec] at h
    | ok p => exact ⟨p, rfl⟩

/-- The clamp lands in the unit interval. -/
theorem clampConfidence_mem (c : ℚ) : 0 ≤ clampConfidence c ∧ clampConfidence c ≤ 1 := by
  unfold clampConfidence
  by_cases h0 : c < 0
  · norm_num [h0]
  · by_cases h1 : c > 1
    · norm_num [h0, h1]
    · simp only [h0, if_false, h1]
      exact ⟨not_lt.mp h0, not_lt.mp h1⟩

/-- A parsed result has its confidence in the unit interval. -/
theorem parseResponse_confidence_mem (lib : GoLib) (response beadID : String)
    (res : VerificationResult) (h : parseResponse lib response beadID = .ok res) :
    0 ≤ res.Confidence ∧ res.Confidence ≤ 1 := by
  obtain ⟨hj, p, hdec⟩ := decoded_of_parseResponse lib response beadID res h
  obtain ⟨res2, h2, _, hc, _⟩ := parseResponse_of_decoded lib response beadID p hj hdec
  rw [h2] at h
  cases h
  rw [hc]
  exact clampConfidence_mem _

/-- A result of `Auditor.VerifyMR` has its confidence in the unit interval. -/
theorem Auditor.VerifyMR_confidence_mem (a : Auditor) (lib : GoLib) (clk : Clock)
    (ctx : Context) (mrID branch targetBranch workdir : String) (res : VerificationResult)
    (h : (a.VerifyMR lib clk ctx mrID branch targetBranch workdir).ret = .ok res) :
    0 ≤ res.Confidence ∧ res.Confidence ≤ 1 := by
  unfold Auditor.VerifyMR at h
  cases hrt : a.runtime with
  | none => simp [hrt] at h
  | some rt =>
    simp only [hrt] at h
    cases hex : rt.Execute ctx (buildMRPrompt mrID branch targetBranch workdir) workdir with
    | error e =>
      simp only [hex] at h
      cases h
      norm_num
    | ok response =>
      simp only [hex] at h
      cases hp : parseResponse lib response mrID with
      | error e =>
        simp only [hp] at h
        cases h
        norm_num
      | ok r =>
        simp only [hp] at h
        cases h
        exact parseResponse_confidence_mem lib response mrID r hp

/-- A result of `Auditor.Verify` has its confidence in the unit interval. -/
theorem Auditor.Verify_confidence_mem (a : Auditor) (lib : GoLib) (clk : Clock)
    (ctx : Context) (beadID workdir : String) (res : VerificationResult)
    (h : (a.Verify lib clk ctx beadID workdir).ret = .ok res) :
    0 ≤ res.Confidence ∧ res.Confidence ≤ 1 := by
  unfold Auditor.Verify at h
  cases hrt : a.runtime with
  | none => simp [hrt] at h
  | some rt =>
    simp only [hrt] at h
    cases hshow : a.beadsDB.Show beadID with
    | error e =>
      simp only [hshow] at h
      split_ifs at h
    | ok bead =>
      simp only [hshow] at h
      cases hex : rt.Execute ctx (buildPrompt bead workdir) workdir with
      | error e =>
        simp only [hex] at h
        cases h
        norm_num
      | ok response =>
        simp only [hex] at h
        cases hp : parseResponse lib response beadID with
        | error e =>
          simp only [hp] at h
          cases h
          norm_num
        | ok r =>
          simp only [hp] at h
          cases h
          exact parseResponse_confidence_mem lib response beadID r hp

/-- Claim C9: the confidence of a parsed result is the decoded confidence
clamped into the unit interval: 0 below 0, 1 above 1, unchanged in between
(so -0.3 gives 0, 1.7 gives 1 and 0.5 stays); and every result returned by
`Verify` or `VerifyMR`, the synthesized failure results included, has its
confidence in the unit interval. -/
theorem confidence_clamped :
    (∀ (lib : GoLib) (response beadID : String) (p : Parsed),
      extractJSON response ≠ "" → lib.Unmarshal (extractJSON response) = .ok p →
      ∃ res, parseResponse lib response beadID = .ok res ∧
        (0 ≤ res.Confidence ∧ res.Confidence ≤ 1) ∧
        (p.Confidence < 0 → res.Confidence = 0) ∧
        (p.Confidence > 1 → res.Confidence = 1) ∧
        (0 ≤ p.Confidence → p.Confidence ≤ 1 → res.Confidence = p.Confidence)) ∧
    (clampConfidence (-3 / 10) = 0 ∧ clampConfidence (17 / 10) = 1 ∧
      clampConfidence (1 / 2) = 1 / 2) ∧
    (∀ (a : Auditor) (lib : GoLib) (clk : Clock) (ctx : Context) (beadID workdir : String)
        (res : VerificationResult),
      (a.Verify lib clk ctx beadID workdir).ret = .ok res →
      0 ≤ res.Confidence ∧ res.Confidence ≤ 1) ∧
    (∀ (a : Auditor) (lib : GoLib) (clk : Clock) (ctx : Context)
        (mrID branch targetBranch workdir : String) (res : VerificationResult),
      (a.VerifyMR lib clk ctx mrID branch targetBranch workdir).ret = .ok res →
      0 ≤ res.Confidence ∧ res.Confidence ≤ 1) := by
  refine ⟨?_, ?_, ?_, ?_⟩
  · intro lib response beadID p hj hdec
    obtain ⟨res, hres, _, hc, _⟩ := parseResponse_of_decoded lib response beadID p hj hdec
    refine ⟨res, hres, ?_, ?_, ?_, ?_⟩
    · rw [hc]; exact clampConfidence_mem _
    · intro h
      rw [hc]
      norm_num [clampConfidence, h]
    · intro h
      have h0 : ¬ p.Confidence < 0 := not_lt.mpr (le_trans zero_le_one (le_of_lt h))
      rw [hc]
      simp [clampConfidence, h0, h]
    · intro h0 h1
      rw [hc]
      simp [clampConfidence, not_lt.mpr h0, not_lt.mpr h1]
  · refine ⟨?_, ?_, ?_⟩ <;> norm_num [clampConfidence]
  · exact Auditor.Verify_confidence_mem
  · exact Auditor.VerifyMR_confidence_mem

/-- Claim C9 on concrete inputs: a response with confidence 1.7 is parsed to
confidence 1, and one with confidence -0.3 to confidence 0. -/
theorem confidence_clamped_witness :
    (∃ res, parseResponse sampleLib "\x7b\"verdict\":\"pass\",\"confidence\":1.7\x7d" "gt-1" = .ok res ∧
      res.Confidence = 1) ∧
    (∃ res, parseResponse sampleLib "\x7b\"verdict\":\"Fail\",\"confidence\":-0.3\x7d" "gt-1" = .ok res ∧
      res.Confidence = 0) := by
  constructor
  · obtain ⟨res, h, _, _, h1, _⟩ := confidence_clamped.1 sampleLib
      "\x7b\"verdict\":\"pass\",\"confidence\":1.7\x7d" "gt-1"
      { Verdict := "pass", Confidence := 17 / 10 } (by decide) (by rfl)
    exact ⟨res, h, h1 (by norm_num)⟩
  · obtain ⟨res, h, _, h0, _⟩ := confidence_clamped.1 sampleLib
      "\x7b\"verdict\":\"Fail\",\"confidence\":-0.3\x7d" "gt-1"
      { Verdict := "Fail", Confidence := -3 / 10 } (by decide) (by rfl)
    exact ⟨res, h, h0 (by norm_num)⟩

/-- A rune whose ASCII upper case is ASCII is upper-cased by Go as by the
ASCII rule, whatever the Unicode table says elsewhere. -/
theorem upperRune_eq_toUpper (lib : GoLib) (c : Char) (h : c.toUpper.toNat < 128) :
    upperRune lib c = c.toUpper := by
  have hc : c.toNat < 128 := by
    unfold Char.toUpper at h
    by_cases hr : c.toNat ≥ 97 ∧ c.toNat ≤ 122
    · omega
    · simpa [hr] using h
  simp only [upperRune, hc, if_true, Char.toUpper]

/-- An ASCII case variant of an ASCII token is equal to it up to letter case. -/
theorem equalUpToCase_of_asciiCaseVariant (lib : GoLib) (tok target : String)
    (hascii : ∀ c ∈ target.data, c.toNat < 128) (hup : ToUpper lib target = target)
    (h : AsciiCaseVariant tok target) : EqualUpToCase lib tok target := by
  unfold EqualUpToCase
  rw [hup]
  unfold AsciiCaseVariant at h
  unfold ToUpper
  have hmap : tok.data.map (upperRune lib) = tok.data.map Char.toUpper := by
    apply List.map_congr_left
    intro c hc
    apply upperRune_eq_toUpper
    apply hascii
    rw [← h]
    exact List.mem_map_of_mem _ hc
  rw [hmap, h]

/-- Claim C10: a parsed result has verdict PASS, FAIL or NEEDS_HUMAN; a decoded
token equal to one of the three names up to letter case gives that verdict,
any other token gives NEEDS_HUMAN; every ASCII case variant of a name is equal
to it up to letter case (so are pass and Fail), and the empty token, which an
absent verdict decodes to, is equal to none of them. -/
theorem verdict_normalised :
    (∀ (lib : GoLib) (response beadID : String) (res : VerificationResult),
      parseResponse lib response beadID = .ok res →
      res.Verdict = VerdictPass ∨ res.Verdict = VerdictFail ∨
        res.Verdict = VerdictNeedsHuman) ∧
    (∀ (lib : GoLib) (response beadID : String) (p : Parsed),
      extractJSON response ≠ "" → lib.Unmarshal (extractJSON response) = .ok p →
      ∃ res, parseResponse lib response beadID = .ok res ∧
        (EqualUpToCase lib p.Verdict "PASS" → res.Verdict = VerdictPass) ∧
        (EqualUpToCase lib p.Verdict "FAIL" → res.Verdict = VerdictFail) ∧
        (EqualUpToCase lib p.Verdict "NEEDS_HUMAN" → res.Verdict = VerdictNeedsHuman) ∧
        (¬ EqualUpToCase lib p.Verdict "PASS" → ¬ EqualUpToCase lib p.Verdict "FAIL" →
          ¬ EqualUpToCase lib p.Verdict "NEEDS_HUMAN" → res.Verdict = VerdictNeedsHuman)) ∧
    (∀ (lib : GoLib) (tok : String),
      (AsciiCaseVariant tok "PASS" → EqualUpToCase lib tok "PASS") ∧
      (AsciiCaseVariant tok "FAIL" → EqualUpToCase lib tok "FAIL") ∧
      (AsciiCaseVariant tok "NEEDS_HUMAN" → EqualUpToCase lib tok "NEEDS_HUMAN")) ∧
    (∀ lib : GoLib,
      EqualUpToCase lib "pass" "PASS" ∧ EqualUpToCase lib "Fail" "FAIL" ∧
      ¬ EqualUpToCase lib "" "PASS" ∧ ¬ EqualUpToCase lib "" "FAIL" ∧
      ¬ EqualUpToCase lib "" "NEEDS_HUMAN") := by
  have hP : ∀ lib : GoLib, ToUpper lib "PASS" = "PASS" := fun _ => rfl
  have hF : ∀ lib : GoLib, ToUpper lib "FAIL" = "FAIL" := fun _ => rfl
  have hN : ∀ lib : GoLib, ToUpper lib "NEEDS_HUMAN" = "NEEDS_HUMAN" := fun _ => rfl
  have hPF : ("PASS" : String) ≠ "FAIL" := by decide
  have hPN : ("PASS" : String) ≠ "NEEDS_HUMAN" := by decide
  have hFN : ("FAIL" : String) ≠ "NEEDS_HUMAN" := by decide
  have key : ∀ (lib : GoLib) (response beadID : String) (p : Parsed),
      extractJSON response ≠ "" → lib.Unmarshal (extractJSON response) = .ok p →
      ∃ res, parseResponse lib response beadID = .ok res ∧
        (EqualUpToCase lib p.Verdict "PASS" → res.Verdict = VerdictPass) ∧
        (EqualUpToCase lib p.Verdict "FAIL" → res.Verdict = VerdictFail) ∧
        (EqualUpToCase lib p.Verdict "NEEDS_HUMAN" → res.Verdict = VerdictNeedsHuman) ∧
        (¬ EqualUpToCase lib p.Verdict "PASS" → ¬ EqualUpToCase lib p.Verdict "FAIL" →
          ¬ EqualUpToCase lib p.Verdict "NEEDS_HUMAN" → res.Verdict = VerdictNeedsHuman) := by
    intro lib response beadID p hj hdec
    obtain ⟨res, hres, _, _, _, _, hv⟩ := parseResponse_of_decoded lib response beadID p hj hdec
    refine ⟨res, hres, ?_, ?_, ?_, ?_⟩
    · intro h
      unfold EqualUpToCase at h
      rw [hP] at h
      rw [hv, if_pos h]
    · intro h
      unfold EqualUpToCase at h
      rw [hF] at h
      rw [hv, h, if_neg (Ne.symm hPF), if_pos rfl]
    · intro h
      unfold EqualUpToCase at h
      rw [hN] at h
      rw [hv, h, if_neg (Ne.symm hPN), if_neg (Ne.symm hFN)]
    · intro h1 h2 _
      unfold EqualUpToCase at h1 h2
      rw [hP] at h1
      rw [hF] at h2
      rw [hv, if_neg h1, if_neg h2]
  refine ⟨?_, key, ?_, ?_⟩
  · intro lib response beadID res h
    obtain ⟨hj, p, hdec⟩ := decoded_of_parseResponse lib response beadID res h
    obtain ⟨res2, h2, _, _, _, _, hv⟩ := parseResponse_of_decoded lib response beadID p hj hdec
    rw [h2] at h
    cases h
    rw [hv]
    split_ifs
    · exact Or.inl rfl
    · exact Or.inr (Or.inl rfl)
    · exact Or.inr (Or.inr rfl)
  · intro lib tok
    refine ⟨?_, ?_, ?_⟩
    · exact equalUpToCase_of_asciiCaseVariant lib tok "PASS" (by decide) (hP lib)
    · exact equalUpToCase_of_asciiCaseVariant lib tok "FAIL" (by decide) (hF lib)
    · exact equalUpToCase_of_asciiCaseVariant lib tok "NEEDS_HUMAN" (by decide) (hN lib)
  · intro lib
    refine ⟨rfl, rfl, ?_, ?_, ?_⟩
    · unfold EqualUpToCase
      rw [hP]
      show ("" : String) ≠ "PASS"
      decide
    · unfold EqualUpToCase
      rw [hF]
      show ("" : String) ≠ "FAIL"
      decide
    · unfold EqualUpToCase
      rw [hN]
      show ("" : String) ≠ "NEEDS_HUMAN"
      decide

/-- Claim C10 on concrete inputs: the token pass is parsed to PASS, the token
MAYBE and the empty object to NEEDS_HUMAN. -/
theorem verdict_normalised_witness :
    (∃ res, parseResponse sampleLib "\x7b\"verdict\":\"pass\",\"confidence\":1.7\x7d" "gt-1" = .ok res ∧
      res.Verdict = VerdictPass) ∧
    (∃ res, parseResponse sampleLib
        "\x7b\"verdict\":\"MAYBE\",\"confidence\":0.5,\"issues\":[\"unsure\"]\x7d" "gt-1" = .ok res ∧
      res.Verdict = VerdictNeedsHuman) ∧
    (∃ res, parseResponse sampleLib "\x7b\x7d" "gt-1" = .ok res ∧
      res.Verdict = VerdictNeedsHuman) := by
  refine ⟨?_, ?_, ?_⟩
  · obtain ⟨res, h, hp, _⟩ := verdict_normalised.2.1 sampleLib
      "\x7b\"verdict\":\"pass\",\"confidence\":1.7\x7d" "gt-1"
      { Verdict := "pass", Confidence := 17 / 10 } (by decide) (by rfl)
    exact ⟨res, h, hp (by rfl)⟩
  · obtain ⟨res, h, _, _, _, hn⟩ := verdict_normalised.2.1 sampleLib
      "\x7b\"verdict\":\"MAYBE\",\"confidence\":0.5,\"issues\":[\"unsure\"]\x7d" "gt-1"
      { Verdict := "MAYBE", Confidence := 1 / 2, Issues := ["unsure"] } (by decide) (by rfl)
    exact ⟨res, h, hn (by decide) (by decide) (by decide)⟩
  · obtain ⟨res, h, _, _, _, hn⟩ := verdict_normalised.2.1 sampleLib
      "\x7b\x7d" "gt-1" {} (by decide) (by rfl)
    exact ⟨res, h, hn (by decide) (by decide) (by decide)⟩

/-! ## FAIL is rejected whatever the confidence -/

/-- Claim C2: when the response of the reviewing tool decodes to a verdict that
upper-cases to FAIL, the enabled gate returns status rejected from `VerifyMR`
and from `VerifyBead`, for every decoded confidence and every threshold of the
configuration; lower-case fail is such a verdict. -/
theorem fail_is_rejected (g : VerificationGate) (lib : GoLib) (clk : Clock) (ctx : Context)
    (mr : MergeRequest) (beadID workdir : String) (rt : Runtime) (response : String)
    (p : Parsed) (hen : g.config.Enabled = true) (hrt : g.auditor.runtime = some rt)
    (hj : extractJSON response ≠ "") (hdec : lib.Unmarshal (extractJSON response) = .ok p)
    (hfail : ToUpper lib p.Verdict = "FAIL") :
    (rt.Execute (g.timeoutContext ctx) (buildMRPrompt mr.ID mr.Branch mr.TargetBranch workdir)
        workdir = .ok response →
      (g.VerifyMR lib clk ctx mr workdir).ret.1.Status = VerificationRejected ∧
      (g.VerifyMR lib clk ctx mr workdir).ret.2 = none) ∧
    (∀ bead, g.auditor.beadsDB.Show beadID = .ok bead →
      rt.Execute (g.timeoutContext ctx) (buildPrompt bead workdir) workdir = .ok response →
      (g.VerifyBead lib clk ctx beadID workdir).ret.1.Status = VerificationRejected ∧
      (g.VerifyBead lib clk ctx beadID workdir).ret.2 = none) ∧
    ToUpper lib "fail" = "FAIL" := by
  have hPF : ("FAIL" : String) ≠ "PASS" := by decide
  have hVF : VerdictFail ≠ VerdictPass := by decide
  have hparse : ∀ id, ∃ res, parseResponse lib response id = .ok res ∧
      res.Verdict = VerdictFail := by
    intro id
    obtain ⟨res, hres, _, _, _, _, hv⟩ := parseResponse_of_decoded lib response id p hj hdec
    refine ⟨res, hres, ?_⟩
    rw [hv, hfail, if_neg hPF, if_pos rfl]
  refine ⟨?_, ?_, rfl⟩
  · intro hex
    obtain ⟨res, hres, hv⟩ := hparse mr.ID
    simp only [VerificationGate.VerifyMR, Auditor.VerifyMR, hen, hrt, hex, hres, hv]
    simp [hVF]
  · intro bead hshow hex
    obtain ⟨res, hres, hv⟩ := hparse beadID
    simp only [VerificationGate.VerifyBead, Auditor.Verify, hen, hrt, hshow, hex, hres, hv]
    simp [hVF]

/-- Claim C2 on a concrete input: the tool answers fail with confidence 0.99,
far above the default threshold, and both operations reject. -/
theorem fail_is_rejected_witness :
    ((sampleGate DefaultVerificationConfig
        (.ok "\x7b\"verdict\":\"fail\",\"confidence\":0.99\x7d")).VerifyMR
        sampleLib sampleClock background sampleMR "/work").ret.1.Status = VerificationRejected ∧
    ((sampleGate DefaultVerificationConfig
        (.ok "\x7b\"verdict\":\"fail\",\"confidence\":0.99\x7d")).VerifyBead
        sampleLib sampleClock background "gt-1" "/work").ret.1.Status = VerificationRejected :=
  have h := fail_is_rejected
    (sampleGate DefaultVerificationConfig (.ok "\x7b\"verdict\":\"fail\",\"confidence\":0.99\x7d"))
    sampleLib sampleClock background sampleMR "gt-1" "/work"
    (sampleRuntime (.ok "\x7b\"verdict\":\"fail\",\"confidence\":0.99\x7d"))
    "\x7b\"verdict\":\"fail\",\"confidence\":0.99\x7d"
    { Verdict := "fail", Confidence := 99 / 100 } rfl rfl (by decide) (by rfl) (by rfl)
  ⟨(h.1 rfl).1, (h.2.1 _ rfl rfl).1⟩

/-! ## The brace scanner -/

theorem lbrace_ne_rbrace : lbrace ≠ rbrace := by decide

theorem depthOf_nil : depthOf [] = 0 := rfl

theorem depthOf_cons (c : Char) (l : List Char) :
    depthOf (c :: l) = braceDelta c + depthOf l := by
  simp [depthOf]

theorem depthOf_append (l₁ l₂ : List Char) : depthOf (l₁ ++ l₂) = depthOf l₁ + depthOf l₂ := by
  simp [depthOf]

theorem depthOf_take_succ_cons (c : Char) (l : List Char) (n : Nat) :
    depthOf ((c :: l).take (n + 1)) = braceDelta c + depthOf (l.take n) := by
  rw [List.take_succ_cons, depthOf_cons]

/-- One turn of the loop at positive depth: it returns exactly when the depth
reaches 0, which only a closing brace can cause. -/
theorem closeLoop_cons_pos (c : Char) (cs : List Char) (i : Nat) (d : Int) (hd : 1 ≤ d) :
    closeLoop (c :: cs) i d =
      if d + braceDelta c = 0 then some i else closeLoop cs (i + 1) (d + braceDelta c) := by
  simp only [closeLoop, braceDelta]
  by_cases hl : c = lbrace
  · have h : ¬ (d + 1 = 0) := by omega
    simp [hl, h]
  · by_cases hr : c = rbrace
    · have hrl : ¬ rbrace = lbrace := fun h => lbrace_ne_rbrace h.symm
      have e : d + -1 = d - 1 := by ring
      simp [hr, hrl, e]
    · have h : ¬ (d = 0) := by omega
      simp [hl, hr, h]

theorem braceDelta_ge (c : Char) : -1 ≤ braceDelta c := by
  unfold braceDelta
  split_ifs <;> omega

/-- The loop returns at the first position where the depth reaches 0. -/
theorem closeLoop_some : ∀ (cs : List Char) (i : Nat) (d : Int) (n : Nat), 1 ≤ d →
    n < cs.length → d + depthOf (cs.take (n + 1)) = 0 →
    (∀ m, m < n → d + depthOf (cs.take (m + 1)) ≠ 0) →
    closeLoop cs i d = some (i + n)
  | [], _, _, _, _, hn, _, _ => by simp at hn
  | c :: cs, i, d, n, hd, hn, hz, hmin => by
    rw [closeLoop_cons_pos c cs i d hd]
    cases n with
    | zero =>
      have h0 : d + braceDelta c = 0 := by
        rw [depthOf_take_succ_cons, List.take_zero, depthOf_nil, add_zero] at hz
        exact hz
      simp [h0]
    | succ n =>
      have h0 : d + braceDelta c ≠ 0 := by
        have h := hmin 0 (Nat.succ_pos n)
        rw [depthOf_take_succ_cons, List.take_zero, depthOf_nil, add_zero] at h
        exact h
      have hge := braceDelta_ge c
      rw [if_neg h0]
      have hrec := closeLoop_some cs (i + 1) (d + braceDelta c) n (by omega)
        (by simpa using hn)
        (by rw [depthOf_take_succ_cons] at hz; omega)
        (by
          intro m hm
          have := hmin (m + 1) (by omega)
          rw [depthOf_take_succ_cons] at this
          omega)
      rw [hrec]
      congr 1
      omega

/-- The loop falls through when the depth never reaches 0. -/
theorem closeLoop_none : ∀ (cs : List Char) (i : Nat) (d : Int), 1 ≤ d →
    (∀ n, n < cs.length → d + depthOf (cs.take (n + 1)) ≠ 0) →
    closeLoop cs i d = none
  | [], _, _, _, _ => rfl
  | c :: cs, i, d, hd, hnz => by
    rw [closeLoop_cons_pos c cs i d hd]
    have h0 : d + braceDelta c ≠ 0 := by
      have h := hnz 0 (by simp)
      rw [depthOf_take_succ_cons, List.take_zero, depthOf_nil, add_zero] at h
      exact h
    have hge := braceDelta_ge c
    rw [if_neg h0]
    apply closeLoop_none cs (i + 1) (d + braceDelta c) (by omega)
    intro n hn
    have := hnz (n + 1) (by simpa using hn)
    rw [depthOf_take_succ_cons] at this
    omega

theorem strIndexFrom_none (c : Char) : ∀ (l : List Char) (i : Nat), c ∉ l →
    strIndexFrom c l i = none
  | [], _, _ => rfl
  | x :: xs, i, h => by
    have hx : x ≠ c := fun e => h (by simp [e])
    have hxs : c ∉ xs := fun e => h (by simp [e])
    simp [strIndexFrom, hx, strIndexFrom_none c xs (i + 1) hxs]

theorem strIndexFrom_first (c : Char) : ∀ (pre s : List Char) (i : Nat), c ∉ pre →
    strIndexFrom c (pre ++ c :: s) i = some (i + pre.length)
  | [], s, i, _ => by simp [strIndexFrom]
  | x :: xs, s, i, h => by
    have hx : x ≠ c := fun e => h (by simp [e])
    have hxs : c ∉ xs := fun e => h (by simp [e])
    rw [List.cons_append]
    simp only [strIndexFrom, hx, if_false, List.length_cons]
    rw [strIndexFrom_first c xs s (i + 1) hxs]
    congr 1
    omega

theorem exists_first_occurrence (c : Char) : ∀ l : List Char, c ∈ l →
    ∃ pre s, l = pre ++ c :: s ∧ c ∉ pre
  | [], h => by simp at h
  | x :: xs, h => by
    by_cases hx : x = c
    · exact ⟨[], xs, by simp [hx], by simp⟩
    · have hxs : c ∈ xs := by
        rcases List.mem_cons.mp h with e | e
        · exact absurd e.symm hx
        · exact e
      obtain ⟨pre, s, hl, hpre⟩ := exists_first_occurrence c xs hxs
      refine ⟨x :: pre, s, by simp [hl], ?_⟩
      intro hmem
      rcases List.mem_cons.mp hmem with e | e
      · exact hx e.symm
      · exact hpre e


/-- The result when the depth returns to 0: the group from the first opening
brace up to the first such position. -/
theorem extractJSON_found (text : String) (pre s : List Char) (k : Nat)
    (htext : text.data = pre ++ lbrace :: s) (hpre : lbrace ∉ pre)
    (hk1 : 1 ≤ k) (hk : k ≤ s.length + 1)
    (hz : depthOf ((lbrace :: s).take k) = 0)
    (hmin : ∀ m, 1 ≤ m → m < k → depthOf ((lbrace :: s).take m) ≠ 0) :
    extractJSON text = String.mk ((lbrace :: s).take k) := by
  have hd : braceDelta lbrace = 1 := by decide
  have hk2 : 2 ≤ k := by
    rcases Nat.lt_or_ge k 2 with h | h
    · have hk' : k = 1 := by omega
      subst hk'
      rw [depthOf_take_succ_cons, List.take_zero, depthOf_nil, hd] at hz
      omega
    · exact h
  obtain ⟨n, rfl⟩ : ∃ n, k = n + 2 := ⟨k - 2, by omega⟩
  have hloop : closeLoop s (pre.length + 1) 1 = some (pre.length + 1 + n) := by
    apply closeLoop_some s (pre.length + 1) 1 n (le_refl 1) (by omega)
    · rw [depthOf_take_succ_cons, hd] at hz
      exact hz
    · intro m hm
      have h := hmin (m + 2) (by omega) (by omega)
      rw [depthOf_take_succ_cons, hd] at h
      exact h
  have hidx : strIndexFrom lbrace text.data 0 = some pre.length := by
    rw [htext, strIndexFrom_first lbrace pre s 0 hpre, Nat.zero_add]
  have hdrop : text.data.drop pre.length = lbrace :: s := by
    rw [htext, List.drop_left]
  have hcl : closeLoop (lbrace :: s) pre.length 0 = some (pre.length + 1 + n) := by
    simp only [closeLoop, if_true, zero_add]
    exact hloop
  unfold extractJSON
  simp only [hidx, hdrop, hcl]
  congr 2
  omega

/-- The result when the depth never returns to 0: the empty string. -/
theorem extractJSON_not_found (text : String) (pre s : List Char)
    (htext : text.data = pre ++ lbrace :: s) (hpre : lbrace ∉ pre)
    (hnz : ∀ k, 1 ≤ k → k ≤ s.length + 1 → depthOf ((lbrace :: s).take k) ≠ 0) :
    extractJSON text = "" := by
  have hd : braceDelta lbrace = 1 := by decide
  have hloop : closeLoop s (pre.length + 1) 1 = none := by
    apply closeLoop_none s (pre.length + 1) 1 (le_refl 1)
    intro n hn
    have h := hnz (n + 2) (by omega) (by omega)
    rw [depthOf_take_succ_cons, hd] at h
    exact h
  have hidx : strIndexFrom lbrace text.data 0 = some pre.length := by
    rw [htext, strIndexFrom_first lbrace pre s 0 hpre, Nat.zero_add]
  have hdrop : text.data.drop pre.length = lbrace :: s := by
    rw [htext, List.drop_left]
  have hcl : closeLoop (lbrace :: s) pre.length 0 = none := by
    simp only [closeLoop, if_true, zero_add]
    exact hloop
  unfold extractJSON
  simp only [hidx, hdrop, hcl]

/-- The result on a text without opening brace: the empty string. -/
theorem extractJSON_no_brace (text : String) (h : lbrace ∉ text.data) :
    extractJSON text = "" := by
  unfold extractJSON
  rw [strIndexFrom_none lbrace text.data 0 h]

/-- Every text falls under one of the three cases above. -/
theorem extractJSON_cases (text : String) :
    lbrace ∉ text.data ∨
    ∃ pre s, text.data = pre ++ lbrace :: s ∧ lbrace ∉ pre ∧
      ((∀ k, 1 ≤ k → k ≤ s.length + 1 → depthOf ((lbrace :: s).take k) ≠ 0) ∨
       ∃ k, 1 ≤ k ∧ k ≤ s.length + 1 ∧ depthOf ((lbrace :: s).take k) = 0 ∧
        (∀ m, 1 ≤ m → m < k → depthOf ((lbrace :: s).take m) ≠ 0)) := by
  by_cases hmem : lbrace ∈ text.data
  · right
    obtain ⟨pre, s, htext, hpre⟩ := exists_first_occurrence lbrace text.data hmem
    refine ⟨pre, s, htext, hpre, ?_⟩
    by_cases hex : ∃ k, 1 ≤ k ∧ k ≤ s.length + 1 ∧ depthOf ((lbrace :: s).take k) = 0
    · right
      refine ⟨Nat.find hex, (Nat.find_spec hex).1, (Nat.find_spec hex).2.1,
        (Nat.find_spec hex).2.2, ?_⟩
      intro m hm1 hmk hz
      have hle : m ≤ s.length + 1 := le_trans (le_of_lt hmk) (Nat.find_spec hex).2.1
      exact Nat.find_min hex hmk ⟨hm1, hle, hz⟩
    · left
      intro k hk1 hk hz
      exact hex ⟨k, hk1, hk, hz⟩
  · exact Or.inl hmem

theorem mk_take_ne_empty (s : List Char) (k : Nat) (hk1 : 1 ≤ k) :
    String.mk ((lbrace :: s).take k) ≠ "" := by
  obtain ⟨n, rfl⟩ : ∃ n, k = n + 1 := ⟨k - 1, by omega⟩
  intro h
  have := congrArg String.data h
  simp at this


theorem take_take_append (s post : List Char) (m n : Nat) (hm : m ≤ n) (hn : n ≤ s.length) :
    (s.take n ++ post).take m = s.take m := by
  rw [List.take_append_of_le_length (by rw [List.length_take]; omega), List.take_take,
    Nat.min_eq_left hm]

/-- Text after the matched group does not change the result. -/
theorem extractJSON_found_append (s : List Char) (k : Nat)
    (hk1 : 1 ≤ k) (hk : k ≤ s.length + 1)
    (hz : depthOf ((lbrace :: s).take k) = 0)
    (hmin : ∀ m, 1 ≤ m → m < k → depthOf ((lbrace :: s).take m) ≠ 0)
    (text : String) (post : List Char) (htext : text.data = (lbrace :: s).take k ++ post) :
    extractJSON text = String.mk ((lbrace :: s).take k) := by
  obtain ⟨n, rfl⟩ : ∃ n, k = n + 1 := ⟨k - 1, by omega⟩
  have hn : n ≤ s.length := by omega
  have hshape : ∀ m, m ≤ n →
      (lbrace :: (s.take n ++ post)).take (m + 1) = (lbrace :: s).take (m + 1) := by
    intro m hm
    rw [List.take_succ_cons, List.take_succ_cons, take_take_append s post m n hm hn]
  have h := extractJSON_found text [] (s.take n ++ post) (n + 1)
    (by rw [htext, List.take_succ_cons]; rfl) (by simp) hk1
    (by rw [List.length_append, List.length_take]; omega)
    (by rw [hshape n (le_refl n)]; exact hz)
    (by
      intro m hm1 hmk
      obtain ⟨j, rfl⟩ : ∃ j, m = j + 1 := ⟨m - 1, by omega⟩
      rw [hshape j (by omega)]
      exact hmin (j + 1) hm1 hmk)
  rw [h, hshape n (le_refl n)]

/-! ## The extraction properties -/

/-- Claim C7: `extractJSON` returns the stretch of text from the first opening
brace to the first position at which the running brace depth is back at 0; it
returns the empty string exactly when there is no opening brace or the depth
never comes back to 0; hence on a text made of a brace-free head, a properly
nested brace group and any tail it returns exactly the group. -/
theorem extractJSON_first_balanced_group (text : String) :
    (lbrace ∉ text.data → extractJSON text = "") ∧
    (∀ pre s, text.data = pre ++ lbrace :: s → lbrace ∉ pre →
      (∀ k, 1 ≤ k → k ≤ s.length + 1 → depthOf ((lbrace :: s).take k) = 0 →
        (∀ m, 1 ≤ m → m < k → depthOf ((lbrace :: s).take m) ≠ 0) →
        extractJSON text = String.mk ((lbrace :: s).take k)) ∧
      ((∀ k, 1 ≤ k → k ≤ s.length + 1 → depthOf ((lbrace :: s).take k) ≠ 0) →
        extractJSON text = "")) ∧
    (extractJSON text = "" ↔
      (lbrace ∉ text.data ∨
        ∃ pre s, text.data = pre ++ lbrace :: s ∧ lbrace ∉ pre ∧
          ∀ k, 1 ≤ k → k ≤ s.length + 1 → depthOf ((lbrace :: s).take k) ≠ 0)) ∧
    (∀ pre obj post, text.data = pre ++ obj ++ post → lbrace ∉ pre → ProperlyNested obj →
      extractJSON text = String.mk obj) := by
  refine ⟨extractJSON_no_brace text, ?_, ?_, ?_⟩
  · intro pre s htext hpre
    exact ⟨fun k hk1 hk hz hmin => extractJSON_found text pre s k htext hpre hk1 hk hz hmin,
      fun hnz => extractJSON_not_found text pre s htext hpre hnz⟩
  · constructor
    · intro hempty
      rcases extractJSON_cases text with h | ⟨pre, s, htext, hpre, h | ⟨k, hk1, hk, hz, hmin⟩⟩
      · exact Or.inl h
      · exact Or.inr ⟨pre, s, htext, hpre, h⟩
      · rw [extractJSON_found text pre s k htext hpre hk1 hk hz hmin] at hempty
        exact absurd hempty (mk_take_ne_empty s k hk1)
    · rintro (h | ⟨pre, s, htext, hpre, hnz⟩)
      · exact extractJSON_no_brace text h
      · exact extractJSON_not_found text pre s htext hpre hnz
  · intro pre obj post htext hpre hobj
    obtain ⟨hhead, hpos, hzero⟩ := hobj
    cases obj with
    | nil => simp at hhead
    | cons c s =>
      have hc : c = lbrace := by simpa using hhead
      subst hc
      have htext2 : text.data = pre ++ lbrace :: (s ++ post) := by
        rw [htext]; simp
      have htk : ∀ m, m ≤ s.length + 1 →
          (lbrace :: (s ++ post)).take m = (lbrace :: s).take m := by
        intro m hm
        rw [← List.cons_append]
        exact List.take_append_of_le_length (by simpa using hm)
      have h := extractJSON_found text pre (s ++ post) (s.length + 1) htext2 hpre (by omega)
        (by rw [List.length_append]; omega)
        (by
          rw [htk _ (le_refl _)]
          have : (lbrace :: s).take (s.length + 1) = lbrace :: s :=
            List.take_of_length_le (by simp)
          rw [this]
          exact hzero)
        (by
          intro m hm1 hmk
          rw [htk m (by omega)]
          exact ne_of_gt (hpos m (by simpa using hmk) hm1))
      rw [h, htk _ (le_refl _)]
      congr 1
      exact List.take_of_length_le (by simp)

/-- Claim C7 on the response of the specification: the object between the
two lines of prose is returned exactly. -/
theorem extractJSON_first_balanced_group_witness :
    extractJSON "Looks fine.\n\x7b\"verdict\":\"PASS\",\"confidence\":0.92,\"issues\":[],\"suggestions\":[\"add tests\"]\x7d\nDone." =
      "\x7b\"verdict\":\"PASS\",\"confidence\":0.92,\"issues\":[],\"suggestions\":[\"add tests\"]\x7d" :=
  (extractJSON_first_balanced_group
    "Looks fine.\n\x7b\"verdict\":\"PASS\",\"confidence\":0.92,\"issues\":[],\"suggestions\":[\"add tests\"]\x7d\nDone.").2.2.2
    "Looks fine.\n".data
    "\x7b\"verdict\":\"PASS\",\"confidence\":0.92,\"issues\":[],\"suggestions\":[\"add tests\"]\x7d".data
    "\nDone.".data (by rfl) (by decide) (by decide)

/-- Claim C8: `extractJSON` is idempotent. -/
theorem extractJSON_idempotent (text : String) :
    extractJSON (extractJSON text) = extractJSON text := by
  have hempty : extractJSON "" = "" := by decide
  rcases extractJSON_cases text with h | ⟨pre, s, htext, hpre, h | ⟨k, hk1, hk, hz, hmin⟩⟩
  · rw [extractJSON_no_brace text h, hempty]
  · rw [extractJSON_not_found text pre s htext hpre h, hempty]
  · rw [extractJSON_found text pre s k htext hpre hk1 hk hz hmin]
    exact extractJSON_found_append s k hk1 hk hz hmin _ [] (by simp)

/-! ## The registry -/

/-- The auditor role: the lookups in the order codex, opencode, claude. -/
theorem getForRole_auditor_eq (r : RuntimeRegistry) :
    r.GetForRole "auditor" =
      ["codex", "opencode", "claude"].findSome? (fun name => r.runtimes.lookup name) := by
  simp only [RuntimeRegistry.GetForRole, if_true, List.findSome?]
  cases r.runtimes.lookup "codex" <;> cases r.runtimes.lookup "opencode" <;>
    cases r.runtimes.lookup "claude" <;> rfl

/-- Any other role: the lookup of claude. -/
theorem getForRole_other_eq (r : RuntimeRegistry) (role : String) (hrole : role ≠ "auditor") :
    r.GetForRole role = r.runtimes.lookup "claude" := by
  simp only [RuntimeRegistry.GetForRole, if_neg hrole]
  cases r.runtimes.lookup "claude" <;> rfl

/-- Claim C15: for the role auditor `GetForRole` returns the runtime entered
under the first of the names codex, opencode, claude that the map holds: with
claude alone among them it is claude, and with codex present it is codex. -/
theorem getForRole_auditor_first_present (r : RuntimeRegistry) :
    r.GetForRole "auditor" =
      ["codex", "opencode", "claude"].findSome? (fun name => r.runtimes.lookup name) ∧
    (∀ rt, r.runtimes.lookup "codex" = some rt → r.GetForRole "auditor" = some rt) ∧
    (∀ rt, r.runtimes.lookup "codex" = none → r.runtimes.lookup "opencode" = some rt →
      r.GetForRole "auditor" = some rt) ∧
    (∀ rt, r.runtimes.lookup "codex" = none → r.runtimes.lookup "opencode" = none →
      r.runtimes.lookup "claude" = some rt → r.GetForRole "auditor" = some rt) ∧
    (r.runtimes.lookup "codex" = none → r.runtimes.lookup "opencode" = none →
      r.runtimes.lookup "claude" = none → r.GetForRole "auditor" = none) := by
  refine ⟨getForRole_auditor_eq r, ?_, ?_, ?_, ?_⟩
  · intro rt h1
    rw [getForRole_auditor_eq]
    simp [List.findSome?, h1]
  · intro rt h1 h2
    rw [getForRole_auditor_eq]
    simp [List.findSome?, h1, h2]
  · intro rt h1 h2 h3
    rw [getForRole_auditor_eq]
    simp [List.findSome?, h1, h2, h3]
  · intro h1 h2 h3
    rw [getForRole_auditor_eq]
    simp [List.findSome?, h1, h2, h3]

/-- Claim C15 on the two registries of the specification: discovery on a host
with claude alone selects the claude runtime, and discovery on a host with
codex and claude selects the codex runtime. -/
theorem getForRole_auditor_first_present_witness :
    (NewRuntimeRegistry (hostWith ["claude"])).GetForRole "auditor" =
      some (ClaudeRuntime (hostWith ["claude"])) ∧
    (NewRuntimeRegistry (hostWith ["codex", "claude"])).GetForRole "auditor" =
      some (CodexRuntime (hostWith ["codex", "claude"])) :=
  ⟨(getForRole_auditor_first_present _).2.2.2.1 _ rfl rfl rfl,
   (getForRole_auditor_first_present _).2.1 _ rfl⟩

/-- Claim C16: for every role other than auditor `GetForRole` returns the
runtime entered as claude when there is one and nil otherwise, whatever else
the map holds. -/
theorem getForRole_other_roles (r : RuntimeRegistry) (role : String)
    (hrole : role ≠ "auditor") :
    r.GetForRole role = r.runtimes.lookup "claude" ∧
    (∀ rt, r.Get "claude" = (some rt, true) → r.GetForRole role = some rt) ∧
    (r.HasRuntime "claude" = false → r.GetForRole role = none) := by
  refine ⟨getForRole_other_eq r role hrole, ?_, ?_⟩
  · intro rt h
    rw [getForRole_other_eq r role hrole]
    exact congrArg Prod.fst h
  · intro h
    rw [getForRole_other_eq r role hrole]
    simpa [RuntimeRegistry.HasRuntime] using h

/-- Claim C16 on a concrete input: with codex and opencode installed and claude
missing, the role polecat gets no runtime, although both others are entered. -/
theorem getForRole_other_roles_witness :
    (NewRuntimeRegistry (hostWith ["codex", "opencode"])).GetForRole "polecat" = none ∧
    (NewRuntimeRegistry (hostWith ["codex", "opencode"])).HasRuntime "codex" = true ∧
    (NewRuntimeRegistry (hostWith ["codex", "opencode"])).HasRuntime "opencode" = true :=
  ⟨(getForRole_other_roles _ "polecat" (by decide)).2.2 (by rfl), by rfl, by rfl⟩


/-- The auditor role finds nothing exactly when none of the three names is
entered. -/
theorem getForRole_auditor_none_iff (r : RuntimeRegistry) :
    r.GetForRole "auditor" = none ↔
      (r.HasRuntime "codex" = false ∧ r.HasRuntime "opencode" = false ∧
        r.HasRuntime "claude" = false) := by
  rw [getForRole_auditor_eq]
  simp only [RuntimeRegistry.HasRuntime, List.findSome?]
  cases r.runtimes.lookup "codex" <;> cases r.runtimes.lookup "opencode" <;>
    cases r.runtimes.lookup "claude" <;> simp

/-- Discovery enters exactly the installed ones of the three tools, so its
registry has no runtime for the auditor exactly when it is empty. -/
theorem newRuntimeRegistry_auditor_none_iff (h : Host) :
    (NewRuntimeRegistry h).GetForRole "auditor" = none ↔ (NewRuntimeRegistry h).List = [] := by
  rw [getForRole_auditor_none_iff]
  simp only [NewRuntimeRegistry, List.foldl, ClaudeRuntime, CodexRuntime, OpenCodeRuntime,
    RuntimeRegistry.HasRuntime, RuntimeRegistry.List]
  cases h.LookPath "claude" <;> cases h.LookPath "codex" <;> cases h.LookPath "opencode" <;>
    simp [AList.lookup_eq_none, AList.mem_keys, AList.keys_insert, AList.keys_singleton]

/-- The constructor `New` fails exactly when the auditor role finds nothing,
and then with `ErrNoRuntime`. -/
theorem new_error_iff (r : RuntimeRegistry) (db : Beads) :
    ((∃ e, New r db = .error e) ↔ r.GetForRole "auditor" = none) ∧
    (∀ e, New r db = .error e → e = ErrNoRuntime) := by
  unfold New
  cases hg : r.GetForRole "auditor" with
  | none =>
    refine ⟨⟨fun _ => rfl, fun _ => ⟨ErrNoRuntime, rfl⟩⟩, ?_⟩
    intro e he
    cases he
    rfl
  | some rt =>
    refine ⟨⟨?_, ?_⟩, ?_⟩
    · rintro ⟨e, he⟩
      cases he
    · intro h
      cases h
    · intro e he
      cases he

/-- Claim C17, what fails: a registry extended through `Register` by a runtime
named gemini contains a reviewer, yet the auditor role finds none in it and
`New` fails with `ErrNoRuntime`. -/
theorem custom_runtime_is_not_selected :
    (emptyRegistry.Register (geminiRuntime (.ok ""))).List = ["gemini"] ∧
    (emptyRegistry.Register (geminiRuntime (.ok ""))).HasRuntime "gemini" = true ∧
    (emptyRegistry.Register (geminiRuntime (.ok ""))).GetForRole "auditor" = none ∧
    (∃ e, New (emptyRegistry.Register (geminiRuntime (.ok ""))) sampleBeads = .error e ∧
      e = ErrNoRuntime) := by
  refine ⟨by decide, by rfl, by rfl, ErrNoRuntime, by rfl, rfl⟩

/-- Claim C17, amended: the auditor role finds no runtime exactly when none of
codex, opencode and claude is entered; for a registry built by discovery that
is exactly when the registry is empty; and this is the only condition under
which `New`, and with it the construction of the verification gate, fails, the
error being `ErrNoRuntime`. -/
theorem auditor_runtime_absent_iff :
    (∀ r : RuntimeRegistry, r.GetForRole "auditor" = none ↔
      (r.HasRuntime "codex" = false ∧ r.HasRuntime "opencode" = false ∧
        r.HasRuntime "claude" = false)) ∧
    (∀ h : Host, (NewRuntimeRegistry h).GetForRole "auditor" = none ↔
      (NewRuntimeRegistry h).List = []) ∧
    (∀ (r : RuntimeRegistry) (db : Beads),
      ((∃ e, New r db = .error e) ↔ r.GetForRole "auditor" = none) ∧
      (∀ e, New r db = .error e → e = ErrNoRuntime)) ∧
    (∀ (h : Host) (beadsNew : String → Beads) (workdir : String),
      ((∃ e, NewVerificationGate h beadsNew workdir = .error e) ↔
        (NewRuntimeRegistry h).List = []) ∧
      (∀ e, NewVerificationGate h beadsNew workdir = .error e → e = ErrNoRuntime)) := by
  refine ⟨getForRole_auditor_none_iff, newRuntimeRegistry_auditor_none_iff, new_error_iff, ?_⟩
  intro h beadsNew workdir
  have hnew := new_error_iff (NewRuntimeRegistry h) (beadsNew workdir)
  rw [← newRuntimeRegistry_auditor_none_iff h, ← hnew.1]
  have hgate : NewVerificationGate h beadsNew workdir =
      match New (NewRuntimeRegistry h) (beadsNew workdir) with
      | .error err => .error err
      | .ok aud => .ok { auditor := aud, config := DefaultVerificationConfig } := rfl
  rw [hgate]
  cases hn : New (NewRuntimeRegistry h) (beadsNew workdir) with
  | error e0 =>
    refine ⟨⟨fun _ => ⟨e0, rfl⟩, fun _ => ⟨e0, rfl⟩⟩, ?_⟩
    intro e he
    cases he
    exact hnew.2 e0 hn
  | ok aud =>
    refine ⟨⟨?_, ?_⟩, ?_⟩
    · rintro ⟨e, he⟩
      cases he
    · rintro ⟨e, he⟩
      cases he
    · intro e he
      cases he

/-- Claim C17, amended, on concrete hosts: with no tool installed the
construction of the verification gate fails, with opencode installed it
succeeds. -/
theorem auditor_runtime_absent_iff_witness :
    (∃ e, NewVerificationGate (hostWith []) (fun _ => sampleBeads) "/work" = .error e) ∧
    ¬ (∃ e, NewVerificationGate (hostWith ["opencode"]) (fun _ => sampleBeads) "/work" =
      .error e) :=
  ⟨((auditor_runtime_absent_iff.2.2.2 (hostWith []) (fun _ => sampleBeads) "/work").1).mpr
      (by decide),
   fun hex => absurd
     (((auditor_runtime_absent_iff.2.2.2 (hostWith ["opencode"]) (fun _ => sampleBeads)
       "/work").1).mp hex) (by decide)⟩

/-- Claim C19: after `Register(rt)` the name of `rt` is bound to `rt`, every
other name is looked up as before, and `List` holds each entered name exactly
once: the names of the old registry and the name of `rt`; entering a second
runtime under the same name replaces the first. -/
theorem register_frame (r : RuntimeRegistry) (rt : Runtime) :
    (r.Register rt).Get rt.Name = (some rt, true) ∧
    (r.Register rt).HasRuntime rt.Name = true ∧
    (∀ name, name ≠ rt.Name →
      (r.Register rt).Get name = r.Get name ∧
      (r.Register rt).HasRuntime name = r.HasRuntime name) ∧
    (∀ name, name ∈ (r.Register rt).List ↔ (r.Register rt).HasRuntime name = true) ∧
    (∀ name, name ∈ (r.Register rt).List ↔ (name = rt.Name ∨ name ∈ r.List)) ∧
    (∀ name, name ∈ (r.Register rt).List → (r.Register rt).List.count name = 1) ∧
    (∀ rt2 : Runtime, rt2.Name = rt.Name →
      ((r.Register rt).Register rt2).Get rt.Name = (some rt2, true) ∧
      ((r.Register rt).Register rt2).List.count rt.Name = 1 ∧
      ((r.Register rt).Register rt2).List.length = (r.Register rt).List.length) := by
  have hget : ∀ (r0 : RuntimeRegistry) (rt0 : Runtime),
      (r0.Register rt0).runtimes.lookup rt0.Name = some rt0 := by
    intro r0 rt0
    exact AList.lookup_insert r0.runtimes
  have hmem : ∀ (r0 : RuntimeRegistry) (name : String),
      name ∈ r0.List ↔ r0.HasRuntime name = true := by
    intro r0 name
    simp only [RuntimeRegistry.List, RuntimeRegistry.HasRuntime]
    rw [← AList.mem_keys, AList.lookup_isSome]
  have hcount : ∀ (r0 : RuntimeRegistry) (name : String),
      name ∈ r0.List → r0.List.count name = 1 := by
    intro r0 name hn
    exact List.count_eq_one_of_mem r0.runtimes.keys_nodup hn
  refine ⟨?_, ?_, ?_, hmem _, ?_, hcount _, ?_⟩
  · simp only [RuntimeRegistry.Get, hget, Option.isSome_some]
  · simp only [RuntimeRegistry.HasRuntime, hget, Option.isSome_some]
  · intro name hne
    have h : (r.Register rt).runtimes.lookup name = r.runtimes.lookup name :=
      AList.lookup_insert_ne hne
    simp only [RuntimeRegistry.Get, RuntimeRegistry.HasRuntime, h, and_self]
  · intro name
    simp only [RuntimeRegistry.List, RuntimeRegistry.Register]
    rw [← AList.mem_keys, ← AList.mem_keys, AList.mem_insert]
  · intro rt2 hname
    have hg2 := hget (r.Register rt) rt2
    rw [hname] at hg2
    refine ⟨?_, ?_, ?_⟩
    · simp only [RuntimeRegistry.Get, hg2, Option.isSome_some]
    · apply hcount
      rw [hmem]
      simp only [RuntimeRegistry.HasRuntime, hg2, Option.isSome_some]
    · simp only [RuntimeRegistry.List, RuntimeRegistry.Register, hname, AList.insert_insert]
      rw [AList.keys_insert, AList.keys_insert]

/-- Claim C19 on a concrete input: gemini is entered twice; the second runtime
is the one found, and the name is listed once. -/
theorem register_frame_witness :
    (((emptyRegistry.Register (geminiRuntime (.ok "first"))).Register
        (geminiRuntime (.ok "second"))).Get "gemini").1.map
        (fun rt => rt.Execute background "" "") = some (.ok "second") ∧
    ((emptyRegistry.Register (geminiRuntime (.ok "first"))).Register
        (geminiRuntime (.ok "second"))).List.count "gemini" = 1 :=
  have h := (register_frame emptyRegistry (geminiRuntime (.ok "first"))).2.2.2.2.2.2
    (geminiRuntime (.ok "second")) rfl
  ⟨by rw [show "gemini" = (geminiRuntime (.ok "first")).Name from rfl, h.1]; rfl, h.2.1⟩

/-! ## Recovered failures of the auditor -/

/-- A failed extraction or a failed decode makes `parseResponse` fail. -/
theorem parseResponse_error_of_parse_failure (lib : GoLib) (response beadID : String)
    (hfail : extractJSON response = "" ∨
      ∃ e, lib.Unmarshal (extractJSON response) = .error e) :
    ∃ err, parseResponse lib response beadID = .error err ∧
      errorsIs err ErrParseResponse = true := by
  unfold parseResponse
  by_cases hj : extractJSON response = ""
  · simp only [hj, if_true]
    exact ⟨_, rfl, by rfl⟩
  · rcases hfail with h | ⟨e, he⟩
    · exact absurd h hj
    · simp only [hj, if_false, he]
      exact ⟨_, rfl, by simp [errorsIs, ErrParseResponse]⟩

/-- Claim C11, at a failing input. The reviewing tool answers with the verdict
MAYBE and one issue. `parseResponse` gives NEEDS_HUMAN, but the issues of the
result are the decoded ones alone: the issue recording the token, appended in
the default branch of the switch, is overwritten by the later assignment of the
decoded issues. The same holds of what `Verify` and `VerifyMR` return. In
general, the recording issue is among the issues of a parsed result only when
the reviewing tool listed that very text itself. -/
theorem unknown_verdict_issue_lost :
    parseResponse sampleLib
        "\x7b\"verdict\":\"MAYBE\",\"confidence\":0.5,\"issues\":[\"unsure\"]\x7d" "gt-1" =
      .ok { BeadID := "gt-1", Verdict := VerdictNeedsHuman, Confidence := 1 / 2,
            Issues := ["unsure"], Suggestions := [] } ∧
    "Unknown verdict: MAYBE" ∉ ["unsure"] ∧
    (∃ res, ((sampleGate DefaultVerificationConfig
          (.ok "\x7b\"verdict\":\"MAYBE\",\"confidence\":0.5,\"issues\":[\"unsure\"]\x7d")).auditor.Verify
          sampleLib sampleClock background "gt-1" "/work").ret = .ok res ∧
        res.Verdict = VerdictNeedsHuman ∧ res.Issues = ["unsure"]) ∧
    (∃ res, ((sampleGate DefaultVerificationConfig
          (.ok "\x7b\"verdict\":\"MAYBE\",\"confidence\":0.5,\"issues\":[\"unsure\"]\x7d")).auditor.VerifyMR
          sampleLib sampleClock background "gt-1" "polecat/gt-1" "main" "/work").ret = .ok res ∧
        res.Verdict = VerdictNeedsHuman ∧ res.Issues = ["unsure"]) ∧
    (∀ (lib : GoLib) (response beadID : String) (p : Parsed) (res : VerificationResult),
      lib.Unmarshal (extractJSON response) = .ok p →
      parseResponse lib response beadID = .ok res →
      (("Unknown verdict: " ++ p.Verdict) ∈ res.Issues ↔
        ("Unknown verdict: " ++ p.Verdict) ∈ p.Issues)) := by
  refine ⟨by with_unfolding_all rfl, by decide, ⟨_, rfl, by rfl, by rfl⟩,
    ⟨_, rfl, by rfl, by rfl⟩, ?_⟩
  intro lib response beadID p res hdec hres
  obtain ⟨hj, _⟩ := decoded_of_parseResponse lib response beadID res hres
  obtain ⟨res2, h2, _, _, hi, _⟩ := parseResponse_of_decoded lib response beadID p hj hdec
  rw [h2] at hres
  cases hres
  rw [hi]

/-- Claim C12: when the reviewing tool ran but its output has no opening brace,
or no balanced brace group, or the extracted text does not decode, `Verify` and
`VerifyMR` return no error and a result with verdict NEEDS_HUMAN, confidence 0
and a non-empty list of issues that starts with the note of the parse failure. -/
theorem parse_failure_recovered (a : Auditor) (lib : GoLib) (clk : Clock) (ctx : Context)
    (beadID mrID branch targetBranch workdir : String) (rt : Runtime) (response : String)
    (hrt : a.runtime = some rt)
    (hfail : lbrace ∉ response.data ∨ extractJSON response = "" ∨
      ∃ e, lib.Unmarshal (extractJSON response) = .error e) :
    (∀ bead, a.beadsDB.Show beadID = .ok bead →
      rt.Execute ctx (buildPrompt bead workdir) workdir = .ok response →
      ∃ res, (a.Verify lib clk ctx beadID workdir).ret = .ok res ∧
        res.Verdict = VerdictNeedsHuman ∧ res.Confidence = 0 ∧ res.Issues ≠ [] ∧
        res.Issues.head? = some "Failed to parse verification response") ∧
    (rt.Execute ctx (buildMRPrompt mrID branch targetBranch workdir) workdir = .ok response →
      ∃ res, (a.VerifyMR lib clk ctx mrID branch targetBranch workdir).ret = .ok res ∧
        res.Verdict = VerdictNeedsHuman ∧ res.Confidence = 0 ∧ res.Issues ≠ [] ∧
        res.Issues.head? = some "Failed to parse verification response") := by
  have hfail2 : extractJSON response = "" ∨
      ∃ e, lib.Unmarshal (extractJSON response) = .error e := by
    rcases hfail with h | h | h
    · exact Or.inl (extractJSON_no_brace response h)
    · exact Or.inl h
    · exact Or.inr h
  constructor
  · intro bead hshow hex
    obtain ⟨err, herr, _⟩ := parseResponse_error_of_parse_failure lib response beadID hfail2
    simp only [Auditor.Verify, hrt, hshow, hex, herr]
    exact ⟨_, rfl, rfl, rfl, by simp, rfl⟩
  · intro hex
    obtain ⟨err, herr, _⟩ := parseResponse_error_of_parse_failure lib response mrID hfail2
    simp only [Auditor.VerifyMR, hrt, hex, herr]
    exact ⟨_, rfl, rfl, rfl, by simp, rfl⟩

/-- Claim C12 on the output of the specification: the text without any brace
is answered with NEEDS_HUMAN by `Verify` and by `VerifyMR`. -/
theorem parse_failure_recovered_witness :
    (∃ res, ((sampleGate DefaultVerificationConfig (.ok "I cannot determine")).auditor.Verify
        sampleLib sampleClock background "gt-1" "/work").ret = .ok res ∧
      res.Verdict = VerdictNeedsHuman ∧ res.Confidence = 0 ∧ res.Issues ≠ [] ∧
      res.Issues.head? = some "Failed to parse verification response") ∧
    (∃ res, ((sampleGate DefaultVerificationConfig (.ok "I cannot determine")).auditor.VerifyMR
        sampleLib sampleClock background "gt-1" "polecat/gt-1" "main" "/work").ret = .ok res ∧
      res.Verdict = VerdictNeedsHuman ∧ res.Confidence = 0 ∧ res.Issues ≠ [] ∧
      res.Issues.head? = some "Failed to parse verification response") :=
  have h := parse_failure_recovered
    (sampleGate DefaultVerificationConfig (.ok "I cannot determine")).auditor
    sampleLib sampleClock background "gt-1" "gt-1" "polecat/gt-1" "main" "/work"
    (sampleRuntime (.ok "I cannot determine")) "I cannot determine" rfl
    (Or.inl (by decide))
  ⟨h.1 _ rfl rfl, h.2 rfl⟩

/-- Claim C13: when `Execute` of the runtime returns an error, `Verify` and
`VerifyMR` return no error and the result with the subject id, verdict
NEEDS_HUMAN, confidence 0, the single issue that ends with the text of the
error, and the name of the runtime as reviewer. -/
theorem execute_failure_recovered (a : Auditor) (lib : GoLib) (clk : Clock) (ctx : Context)
    (beadID mrID branch targetBranch workdir : String) (rt : Runtime) (e : GoError)
    (hrt : a.runtime = some rt) :
    (∀ bead, a.beadsDB.Show beadID = .ok bead →
      rt.Execute ctx (buildPrompt bead workdir) workdir = .error e →
      (a.Verify lib clk ctx beadID workdir).ret =
        .ok { BeadID := beadID, Verdict := VerdictNeedsHuman, Confidence := 0,
              Issues := ["Verification execution failed: " ++ e.Error], Suggestions := [],
              ReviewedBy := rt.Name, ReviewedAt := clk 1, Duration := clk 2 - clk 0 }) ∧
    (rt.Execute ctx (buildMRPrompt mrID branch targetBranch workdir) workdir = .error e →
      (a.VerifyMR lib clk ctx mrID branch targetBranch workdir).ret =
        .ok { BeadID := mrID, Verdict := VerdictNeedsHuman, Confidence := 0,
              Issues := ["Verification execution failed: " ++ e.Error], Suggestions := [],
              ReviewedBy := rt.Name, ReviewedAt := clk 1, Duration := clk 2 - clk 0 }) := by
  constructor
  · intro bead hshow hex
    simp only [Auditor.Verify, hrt, hshow, hex]
  · intro hex
    simp only [Auditor.VerifyMR, hrt, hex]

/-- Claim C13 on a concrete input: the tool times out, and both operations
return the synthesized result naming codex and quoting the error. -/
theorem execute_failure_recovered_witness :
    ((sampleGate DefaultVerificationConfig
        (.error (.new "codex execution failed: signal: killed"))).auditor.Verify
        sampleLib sampleClock background "gt-1" "/work").ret =
      .ok { BeadID := "gt-1", Verdict := VerdictNeedsHuman, Confidence := 0,
            Issues := ["Verification execution failed: codex execution failed: signal: killed"],
            Suggestions := [], ReviewedBy := "codex", ReviewedAt := 1000000000,
            Duration := 2000000000 } ∧
    ((sampleGate DefaultVerificationConfig
        (.error (.new "codex execution failed: signal: killed"))).auditor.VerifyMR
        sampleLib sampleClock background "gt-1" "polecat/gt-1" "main" "/work").ret =
      .ok { BeadID := "gt-1", Verdict := VerdictNeedsHuman, Confidence := 0,
            Issues := ["Verification execution failed: codex execution failed: signal: killed"],
            Suggestions := [], ReviewedBy := "codex", ReviewedAt := 1000000000,
            Duration := 2000000000 } :=
  have h := execute_failure_recovered
    (sampleGate DefaultVerificationConfig
      (.error (.new "codex execution failed: signal: killed"))).auditor
    sampleLib sampleClock background "gt-1" "gt-1" "polecat/gt-1" "main" "/work"
    (sampleRuntime (.error (.new "codex execution failed: signal: killed")))
    (.new "codex execution failed: signal: killed") rfl
  ⟨h.1 _ rfl rfl, h.2 rfl⟩

/-! ## Failures seen through the verification gate -/

/-- Claim C14, what fails: the tool of the enabled sample gate fails to run;
`VerifyMR` and `VerifyBead` return status needs_review with the error quoted
in the issue, but the error they return is nil. -/
theorem execution_failure_returns_nil_error :
    ((sampleGate DefaultVerificationConfig
        (.error (.new "codex execution failed: signal: killed"))).VerifyMR
        sampleLib sampleClock background sampleMR "/work").ret =
      ({ Status := VerificationNeedsReview, ReviewedBy := "codex", Confidence := 0,
         Issues := ["Verification execution failed: codex execution failed: signal: killed"],
         Suggestions := [], VerifiedAt := some 1000000000 }, none) ∧
    ((sampleGate DefaultVerificationConfig
        (.error (.new "codex execution failed: signal: killed"))).VerifyBead
        sampleLib sampleClock background "gt-1" "/work").ret =
      ({ Status := VerificationNeedsReview, ReviewedBy := "codex", Confidence := 0,
         Issues := ["Verification execution failed: codex execution failed: signal: killed"],
         Suggestions := [], VerifiedAt := some 1000000000 }, none) := by
  constructor <;> with_unfolding_all rfl

/-- Claim C14, amended: when the execution of the reviewing tool fails in an
enabled call of `VerifyMR` or `VerifyBead`, the info returned has status
needs_review and the single issue that quotes the execution error, and the
error returned alongside it is nil. -/
theorem execution_failure_needs_review (g : VerificationGate) (lib : GoLib) (clk : Clock)
    (ctx : Context) (mr : MergeRequest) (beadID workdir : String) (rt : Runtime)
    (e : GoError) (hen : g.config.Enabled = true) (hrt : g.auditor.runtime = some rt) :
    (rt.Execute (g.timeoutContext ctx) (buildMRPrompt mr.ID mr.Branch mr.TargetBranch workdir)
        workdir = .error e →
      (g.VerifyMR lib clk ctx mr workdir).ret =
        ({ Status := VerificationNeedsReview, ReviewedBy := rt.Name, Confidence := 0,
           Issues := ["Verification execution failed: " ++ e.Error], Suggestions := [],
           VerifiedAt := some (clk 1) }, none)) ∧
    (∀ bead, g.auditor.beadsDB.Show beadID = .ok bead →
      rt.Execute (g.timeoutContext ctx) (buildPrompt bead workdir) workdir = .error e →
      (g.VerifyBead lib clk ctx beadID workdir).ret =
        ({ Status := VerificationNeedsReview, ReviewedBy := rt.Name, Confidence := 0,
           Issues := ["Verification execution failed: " ++ e.Error], Suggestions := [],
           VerifiedAt := some (clk 1) }, none)) := by
  have h1 : VerdictNeedsHuman ≠ VerdictPass := by decide
  have h2 : VerdictNeedsHuman ≠ VerdictFail := by decide
  constructor
  · intro hex
    simp only [VerificationGate.VerifyMR, Auditor.VerifyMR, hen, hrt, hex]
    simp [h1, h2]
  · intro bead hshow hex
    simp only [VerificationGate.VerifyBead, Auditor.Verify, hen, hrt, hshow, hex]
    simp [h1, h2]

/-- Claim C14, amended, on a concrete input: the killed tool of the sample
gate. -/
theorem execution_failure_needs_review_witness :
    ((sampleGate DefaultVerificationConfig
        (.error (.new "codex execution failed: signal: killed"))).VerifyMR
        sampleLib sampleClock background sampleMR "/work").ret.1.Status =
      VerificationNeedsReview ∧
    ((sampleGate DefaultVerificationConfig
        (.error (.new "codex execution failed: signal: killed"))).VerifyMR
        sampleLib sampleClock background sampleMR "/work").ret.2 = none :=
  have h := (execution_failure_needs_review
    (sampleGate DefaultVerificationConfig
      (.error (.new "codex execution failed: signal: killed")))
    sampleLib sampleClock background sampleMR "gt-1" "/work"
    (sampleRuntime (.error (.new "codex execution failed: signal: killed")))
    (.new "codex execution failed: signal: killed") rfl rfl).1 rfl
  ⟨congrArg (fun p => p.1.Status) h, congrArg (fun p => p.2) h⟩

/-- An error is found on its own unwrap chain. -/
theorem errorsIs_self (e : GoError) : errorsIs e e = true := by
  cases e <;> simp [errorsIs]

/-- Claim C18: when the tracker lookup fails, `Verify` returns an error and no
result without launching the reviewing tool; the error wraps `ErrBeadNotFound`
when the tracker error is the not-found condition and wraps the tracker error
otherwise, so that (the tracker, a package the auditor imports, cannot hold the
sentinel of the auditor) it matches `ErrBeadNotFound` exactly in the first
case; when the lookup succeeds `Verify` returns a result. -/
theorem lookup_failure_propagates (a : Auditor) (lib : GoLib) (clk : Clock) (ctx : Context)
    (beadID workdir : String) (rt : Runtime) (hrt : a.runtime = some rt) :
    (∀ e, a.beadsDB.Show beadID = .error e →
      (∃ err, (a.Verify lib clk ctx beadID workdir).ret = .error err ∧
        (errorsIs e a.beadsDB.ErrNotFound = true →
          err = .wrap (ErrBeadNotFound.Error ++ ": " ++ beadID) ErrBeadNotFound ∧
          errorsIs err ErrBeadNotFound = true) ∧
        (errorsIs e a.beadsDB.ErrNotFound = false →
          err = .wrap ("fetching bead: " ++ e.Error) e ∧ errorsIs err e = true) ∧
        (errorsIs e ErrBeadNotFound = false →
          (errorsIs err ErrBeadNotFound = true ↔ errorsIs e a.beadsDB.ErrNotFound = true))) ∧
      (a.Verify lib clk ctx beadID workdir).trace = [Call.TrackerShow beadID] ∧
      (a.Verify lib clk ctx beadID workdir).trace.any Call.isExecute = false) ∧
    (∀ bead, a.beadsDB.Show beadID = .ok bead →
      ∃ res, (a.Verify lib clk ctx beadID workdir).ret = .ok res) := by
  constructor
  · intro e hshow
    by_cases hnf : errorsIs e a.beadsDB.ErrNotFound = true
    · have hv : a.Verify lib clk ctx beadID workdir =
          ⟨.error (.wrap (ErrBeadNotFound.Error ++ ": " ++ beadID) ErrBeadNotFound),
            [Call.TrackerShow beadID]⟩ := by
        simp only [Auditor.Verify, hrt, hshow, hnf, if_true]
      rw [hv]
      refine ⟨⟨_, rfl, ?_, ?_, ?_⟩, rfl, by rfl⟩
      · intro _
        exact ⟨rfl, by simp [errorsIs, ErrBeadNotFound]⟩
      · intro h
        rw [hnf] at h
        cases h
      · intro _
        simp [errorsIs, ErrBeadNotFound, hnf]
    · have hnf2 : errorsIs e a.beadsDB.ErrNotFound = false := by
        simpa using hnf
      have hv : a.Verify lib clk ctx beadID workdir =
          ⟨.error (.wrap ("fetching bead: " ++ e.Error) e), [Call.TrackerShow beadID]⟩ := by
        simp only [Auditor.Verify, hrt, hshow, hnf2, Bool.false_eq_true, if_false]
      rw [hv]
      refine ⟨⟨_, rfl, ?_, ?_, ?_⟩, rfl, by rfl⟩
      · intro h
        rw [hnf2] at h
        cases h
      · intro _
        exact ⟨rfl, by simp [errorsIs, errorsIs_self]⟩
      · intro he
        have hw : errorsIs (.wrap ("fetching bead: " ++ e.Error) e) ErrBeadNotFound =
            errorsIs e ErrBeadNotFound := by
          simp [errorsIs, ErrBeadNotFound]
        rw [hw, he, hnf2]
  · intro bead hshow
    simp only [Auditor.Verify, hrt, hshow]
    cases rt.Execute ctx (buildPrompt bead workdir) workdir with
    | error e => exact ⟨_, rfl⟩
    | ok response => exact ⟨_, rfl⟩

/-- Claim C18 on concrete inputs: the sample tracker does not know gt-404 and
reports its not-found condition, so `Verify` fails with an error matching
`ErrBeadNotFound` and the tool is not launched; it knows gt-1, so `Verify`
returns a result. -/
theorem lookup_failure_propagates_witness :
    (∃ err, ((sampleGate DefaultVerificationConfig (.ok "I cannot determine")).auditor.Verify
        sampleLib sampleClock background "gt-404" "/work").ret = .error err ∧
      errorsIs err ErrBeadNotFound = true) ∧
    ((sampleGate DefaultVerificationConfig (.ok "I cannot determine")).auditor.Verify
        sampleLib sampleClock background "gt-404" "/work").trace.any Call.isExecute = false ∧
    (∃ res, ((sampleGate DefaultVerificationConfig (.ok "I cannot determine")).auditor.Verify
        sampleLib sampleClock background "gt-1" "/work").ret = .ok res) :=
  have h := lookup_failure_propagates
    (sampleGate DefaultVerificationConfig (.ok "I cannot determine")).auditor
    sampleLib sampleClock background "gt-404" "/work"
    (sampleRuntime (.ok "I cannot determine")) rfl
  have h1 := lookup_failure_propagates
    (sampleGate DefaultVerificationConfig (.ok "I cannot determine")).auditor
    sampleLib sampleClock background "gt-1" "/work"
    (sampleRuntime (.ok "I cannot determine")) rfl
  have h404 := h.1 (.new "issue not found") rfl
  ⟨h404.1.elim fun err herr => ⟨err, herr.1, (herr.2.1 (by decide)).2⟩, h404.2.2, h1.2 _ rfl⟩

/-! ## The statuses the verification gate returns -/

/-- A parsed result carries one of the three verdicts. -/
theorem parseResponse_verdict_mem (lib : GoLib) (response beadID : String)
    (res : VerificationResult) (h : parseResponse lib response beadID = .ok res) :
    res.Verdict = VerdictPass ∨ res.Verdict = VerdictFail ∨
      res.Verdict = VerdictNeedsHuman := by
  obtain ⟨hj, p, hdec⟩ := decoded_of_parseResponse lib response beadID res h
  obtain ⟨res2, h2, _, _, _, _, hv⟩ := parseResponse_of_decoded lib response beadID p hj hdec
  rw [h2] at h
  cases h
  rw [hv]
  split_ifs
  · exact Or.inl rfl
  · exact Or.inr (Or.inl rfl)
  · exact Or.inr (Or.inr rfl)

/-- A result of `Auditor.VerifyMR` carries one of the three verdicts. -/
theorem verifyMR_verdict_mem (a : Auditor) (lib : GoLib) (clk : Clock)
    (ctx : Context) (mrID branch targetBranch workdir : String) (res : VerificationResult)
    (h : (a.VerifyMR lib clk ctx mrID branch targetBranch workdir).ret = .ok res) :
    res.Verdict = VerdictPass ∨ res.Verdict = VerdictFail ∨
      res.Verdict = VerdictNeedsHuman := by
  unfold Auditor.VerifyMR at h
  cases hrt : a.runtime with
  | none => simp [hrt] at h
  | some rt =>
    simp only [hrt] at h
    cases hex : rt.Execute ctx (buildMRPrompt mrID branch targetBranch workdir) workdir with
    | error e =>
      simp only [hex] at h
      cases h
      exact Or.inr (Or.inr rfl)
    | ok response =>
      simp only [hex] at h
      cases hp : parseResponse lib response mrID with
      | error e =>
        simp only [hp] at h
        cases h
        exact Or.inr (Or.inr rfl)
      | ok r =>
        simp only [hp] at h
        cases h
        exact parseResponse_verdict_mem lib response mrID r hp

/-- A result of `Auditor.Verify` carries one of the three verdicts. -/
theorem verify_verdict_mem (a : Auditor) (lib : GoLib) (clk : Clock)
    (ctx : Context) (beadID workdir : String) (res : VerificationResult)
    (h : (a.Verify lib clk ctx beadID workdir).ret = .ok res) :
    res.Verdict = VerdictPass ∨ res.Verdict = VerdictFail ∨
      res.Verdict = VerdictNeedsHuman := by
  unfold Auditor.Verify at h
  cases hrt : a.runtime with
  | none => simp [hrt] at h
  | some rt =>
    simp only [hrt] at h
    cases hshow : a.beadsDB.Show beadID with
    | error e =>
      simp only [hshow] at h
      split_ifs at h
    | ok bead =>
      simp only [hshow] at h
      cases hex : rt.Execute ctx (buildPrompt bead workdir) workdir with
      | error e =>
        simp only [hex] at h
        cases h
        exact Or.inr (Or.inr rfl)
      | ok response =>
        simp only [hex] at h
        cases hp : parseResponse lib response beadID with
        | error e =>
          simp only [hp] at h
          cases h
          exact Or.inr (Or.inr rfl)
        | ok r =>
          simp only [hp] at h
          cases h
          exact parseResponse_verdict_mem lib response beadID r hp

/-- Claim C20: whatever the configuration, the tracker and the reviewing tool
do (any output text, any error), the status returned by `VerifyMR` and by
`VerifyBead` is verified, rejected, needs_review or skipped, hence neither
pending nor the empty string. -/
theorem gate_status_is_final (g : VerificationGate) (lib : GoLib) (clk : Clock)
    (ctx : Context) (mr : MergeRequest) (beadID workdir : String) :
    ((g.VerifyMR lib clk ctx mr workdir).ret.1.Status ∈
        [VerificationVerified, VerificationRejected, VerificationNeedsReview,
          VerificationSkipped] ∧
      (g.VerifyMR lib clk ctx mr workdir).ret.1.Status ≠ VerificationPending ∧
      (g.VerifyMR lib clk ctx mr workdir).ret.1.Status ≠ "") ∧
    ((g.VerifyBead lib clk ctx beadID workdir).ret.1.Status ∈
        [VerificationVerified, VerificationRejected, VerificationNeedsReview,
          VerificationSkipped] ∧
      (g.VerifyBead lib clk ctx beadID workdir).ret.1.Status ≠ VerificationPending ∧
      (g.VerifyBead lib clk ctx beadID workdir).ret.1.Status ≠ "") := by
  have hfinal : ∀ s : VerificationStatus,
      s ∈ [VerificationVerified, VerificationRejected, VerificationNeedsReview,
        VerificationSkipped] →
      s ∈ [VerificationVerified, VerificationRejected, VerificationNeedsReview,
        VerificationSkipped] ∧ s ≠ VerificationPending ∧ s ≠ "" := by
    intro s hs
    refine ⟨hs, ?_, ?_⟩ <;>
    · intro h
      rw [h] at hs
      revert hs
      decide
  have hFP : VerdictFail ≠ VerdictPass := by decide
  have hNP : VerdictNeedsHuman ≠ VerdictPass := by decide
  have hNF : VerdictNeedsHuman ≠ VerdictFail := by decide
  constructor
  · apply hfinal
    cases hen : g.config.Enabled with
    | false => simp [VerificationGate.VerifyMR, hen]
    | true =>
      cases hr : (g.auditor.VerifyMR lib clk (g.timeoutContext ctx) mr.ID mr.Branch
          mr.TargetBranch workdir).ret with
      | error e => simp [VerificationGate.VerifyMR, hen, hr]
      | ok r =>
        rcases verifyMR_verdict_mem _ _ _ _ _ _ _ _ r hr with hv | hv | hv
        · simp only [VerificationGate.VerifyMR, hen, hr, hv]
          by_cases hc : r.Confidence ≥ g.config.RequiredConfidence <;> simp [hc]
        · simp [VerificationGate.VerifyMR, hen, hr, hv, hFP]
        · simp [VerificationGate.VerifyMR, hen, hr, hv, hNP, hNF]
  · apply hfinal
    cases hen : g.config.Enabled with
    | false => simp [VerificationGate.VerifyBead, hen]
    | true =>
      cases hr : (g.auditor.Verify lib clk (g.timeoutContext ctx) beadID workdir).ret with
      | error e => simp [VerificationGate.VerifyBead, hen, hr]
      | ok r =>
        rcases verify_verdict_mem _ _ _ _ _ _ r hr with hv | hv | hv
        · simp only [VerificationGate.VerifyBead, hen, hr, hv]
          by_cases hc : r.Confidence ≥ g.config.RequiredConfidence <;> simp [hc]
        · simp [VerificationGate.VerifyBead, hen, hr, hv, hFP]
        · simp [VerificationGate.VerifyBead, hen, hr, hv, hNP, hNF]

/-! ## `Verify` and `VerifyMR` side by side -/

/-- Claim C21, with its failing input. When the reviewing tool gives both
operations the same outcome for the same subject id and the tracker lookup
succeeds, the two results agree in subject id, verdict, confidence,
suggestions and reviewer; their issues agree after an execution failure and
after a successful parse, but after a parse failure `Verify` lists the text of
the parse error as a second issue and `VerifyMR` does not. At the output
without any brace, `Verify` returns two issues and `VerifyMR` one. -/
theorem verifyMR_drops_parse_error_text :
    (∀ (a : Auditor) (lib : GoLib) (clk : Clock) (ctx : Context)
        (id branch targetBranch workdir : String) (rt : Runtime) (bead : Issue)
        (out : Except GoError String),
      a.runtime = some rt → a.beadsDB.Show id = .ok bead →
      rt.Execute ctx (buildPrompt bead workdir) workdir = out →
      rt.Execute ctx (buildMRPrompt id branch targetBranch workdir) workdir = out →
      ∃ r1 r2, (a.Verify lib clk ctx id workdir).ret = .ok r1 ∧
        (a.VerifyMR lib clk ctx id branch targetBranch workdir).ret = .ok r2 ∧
        r1.BeadID = r2.BeadID ∧ r1.Verdict = r2.Verdict ∧ r1.Confidence = r2.Confidence ∧
        r1.Suggestions = r2.Suggestions ∧ r1.ReviewedBy = r2.ReviewedBy ∧
        (∀ e, out = .error e → r1.Issues = r2.Issues) ∧
        (∀ response res, out = .ok response → parseResponse lib response id = .ok res →
          r1.Issues = r2.Issues) ∧
        (∀ response err, out = .ok response → parseResponse lib response id = .error err →
          r1.Issues = r2.Issues ++ [err.Error])) ∧
    (∃ r1 r2,
      ((sampleGate DefaultVerificationConfig (.ok "I cannot determine")).auditor.Verify
        sampleLib sampleClock background "gt-1" "/work").ret = .ok r1 ∧
      ((sampleGate DefaultVerificationConfig (.ok "I cannot determine")).auditor.VerifyMR
        sampleLib sampleClock background "gt-1" "polecat/gt-1" "main" "/work").ret = .ok r2 ∧
      r1.Issues = ["Failed to parse verification response",
        "failed to parse verification response: no JSON found in response"] ∧
      r2.Issues = ["Failed to parse verification response"] ∧
      r1.Issues ≠ r2.Issues) := by
  constructor
  · intro a lib clk ctx id branch targetBranch workdir rt bead out hrt hshow hex1 hex2
    cases out with
    | error e =>
      simp only [Auditor.Verify, Auditor.VerifyMR, hrt, hshow, hex1, hex2]
      refine ⟨_, _, rfl, rfl, rfl, rfl, rfl, rfl, rfl, ?_, ?_, ?_⟩
      · intro _ _
        rfl
      · intro response res h
        cases h
      · intro response err h
        cases h
    | ok response =>
      cases hp : parseResponse lib response id with
      | error err =>
        simp only [Auditor.Verify, Auditor.VerifyMR, hrt, hshow, hex1, hex2, hp]
        refine ⟨_, _, rfl, rfl, rfl, rfl, rfl, rfl, rfl, ?_, ?_, ?_⟩
        · intro e h
          cases h
        · intro response2 res h h2
          cases h
          rw [hp] at h2
          cases h2
        · intro response2 err2 h h2
          cases h
          rw [hp] at h2
          cases h2
          rfl
      | ok res =>
        simp only [Auditor.Verify, Auditor.VerifyMR, hrt, hshow, hex1, hex2, hp]
        refine ⟨_, _, rfl, rfl, rfl, rfl, rfl, rfl, rfl, ?_, ?_, ?_⟩
        · intro e h
          cases h
        · intro _ _ _ _
          rfl
        · intro response2 err2 h h2
          cases h
          rw [hp] at h2
          cases h2
  · exact ⟨_, _, rfl, rfl, by rfl, by rfl, by decide⟩

/-- Claim C22: every result that `Verify` or `VerifyMR` returns, on the path of
the execution failure, of the parse failure and of the normal parse alike,
names the runtime of the auditor as reviewer and carries the id passed in. -/
theorem result_is_stamped (a : Auditor) (lib : GoLib) (clk : Clock) (ctx : Context)
    (beadID mrID branch targetBranch workdir : String) :
    (∀ res, (a.Verify lib clk ctx beadID workdir).ret = .ok res →
      res.BeadID = beadID ∧ res.ReviewedBy = a.RuntimeName ∧
      ∃ rt, a.runtime = some rt ∧ res.ReviewedBy = rt.Name) ∧
    (∀ res, (a.VerifyMR lib clk ctx mrID branch targetBranch workdir).ret = .ok res →
      res.BeadID = mrID ∧ res.ReviewedBy = a.RuntimeName ∧
      ∃ rt, a.runtime = some rt ∧ res.ReviewedBy = rt.Name) := by
  have hid : ∀ (response id : String) (r : VerificationResult),
      parseResponse lib response id = .ok r → r.BeadID = id := by
    intro response id r h
    obtain ⟨hj, p, hdec⟩ := decoded_of_parseResponse lib response id r h
    obtain ⟨r2, h2, hb, _⟩ := parseResponse_of_decoded lib response id p hj hdec
    rw [h2] at h
    cases h
    exact hb
  constructor
  · intro res h
    unfold Auditor.Verify at h
    cases hrt : a.runtime with
    | none => simp [hrt] at h
    | some rt =>
      simp only [hrt] at h
      cases hshow : a.beadsDB.Show beadID with
      | error e =>
        simp only [hshow] at h
        split_ifs at h
      | ok bead =>
        simp only [hshow] at h
        cases hex : rt.Execute ctx (buildPrompt bead workdir) workdir with
        | error e =>
          simp only [hex] at h
          cases h
          exact ⟨rfl, by simp [Auditor.RuntimeName, hrt], rt, rfl, rfl⟩
        | ok response =>
          simp only [hex] at h
          cases hp : parseResponse lib response beadID with
          | error e =>
            simp only [hp] at h
            cases h
            exact ⟨rfl, by simp [Auditor.RuntimeName, hrt], rt, rfl, rfl⟩
          | ok r =>
            simp only [hp] at h
            cases h
            exact ⟨hid response beadID r hp, by simp [Auditor.RuntimeName, hrt], rt, rfl, rfl⟩
  · intro res h
    unfold Auditor.VerifyMR at h
    cases hrt : a.runtime with
    | none => simp [hrt] at h
    | some rt =>
      simp only [hrt] at h
      cases hex : rt.Execute ctx (buildMRPrompt mrID branch targetBranch workdir) workdir with
      | error e =>
        simp only [hex] at h
        cases h
        exact ⟨rfl, by simp [Auditor.RuntimeName, hrt], rt, rfl, rfl⟩
      | ok response =>
        simp only [hex] at h
        cases hp : parseResponse lib response mrID with
        | error e =>
          simp only [hp] at h
          cases h
          exact ⟨rfl, by simp [Auditor.RuntimeName, hrt], rt, rfl, rfl⟩
        | ok r =>
          simp only [hp] at h
          cases h
          exact ⟨hid response mrID r hp, by simp [Auditor.RuntimeName, hrt], rt, rfl, rfl⟩

/-- Claim C22 on a concrete input: the parsed answer of the sample tool is
stamped with codex and gt-1. -/
theorem result_is_stamped_witness :
    ∃ res, ((sampleGate DefaultVerificationConfig
        (.ok "\x7b\"verdict\":\"fail\",\"confidence\":0.99\x7d")).auditor.Verify
        sampleLib sampleClock background "gt-1" "/work").ret = .ok res ∧
      res.BeadID = "gt-1" ∧ res.ReviewedBy = "codex" :=
  ⟨_, rfl, ((result_is_stamped
    (sampleGate DefaultVerificationConfig
      (.ok "\x7b\"verdict\":\"fail\",\"confidence\":0.99\x7d")).auditor
    sampleLib sampleClock background "gt-1" "gt-1" "polecat/gt-1" "main" "/work").1 _ rfl).1,
   ((result_is_stamped
    (sampleGate DefaultVerificationConfig
      (.ok "\x7b\"verdict\":\"fail\",\"confidence\":0.99\x7d")).auditor
    sampleLib sampleClock background "gt-1" "gt-1" "polecat/gt-1" "main" "/work").1 _ rfl).2.1⟩

/-- Claim C30: the issues and the suggestions of a parsed result are the
decoded arrays themselves, element for element, whatever the verdict token. -/
theorem issues_and_suggestions_verbatim (lib : GoLib) (response beadID : String)
    (p : Parsed) (res : VerificationResult)
    (hdec : lib.Unmarshal (extractJSON response) = .ok p)
    (hres : parseResponse lib response beadID = .ok res) :
    res.Issues = p.Issues ∧ res.Suggestions = p.Suggestions := by
  obtain ⟨hj, _⟩ := decoded_of_parseResponse lib response beadID res hres
  obtain ⟨res2, h2, _, _, hi, hs, _⟩ := parseResponse_of_decoded lib response beadID p hj hdec
  rw [h2] at hres
  cases hres
  exact ⟨hi, hs⟩

/-- Claim C30 on concrete inputs: the answer of the specification keeps its
empty issues and its one suggestion. -/
theorem issues_and_suggestions_verbatim_witness :
    ∃ res, parseResponse sampleLib
        "Looks fine.\n\x7b\"verdict\":\"PASS\",\"confidence\":0.92,\"issues\":[],\"suggestions\":[\"add tests\"]\x7d\nDone."
        "gt-1" = .ok res ∧
      res.Issues = [] ∧ res.Suggestions = ["add tests"] :=
  ⟨_, rfl, issues_and_suggestions_verbatim sampleLib
    "Looks fine.\n\x7b\"verdict\":\"PASS\",\"confidence\":0.92,\"issues\":[],\"suggestions\":[\"add tests\"]\x7d\nDone."
    "gt-1" { Verdict := "PASS", Confidence := 23 / 25, Issues := [], Suggestions := ["add tests"] }
    _ (by rfl) rfl⟩

/-! ## A brace inside a JSON string -/

set_option maxRecDepth 20000 in
/-- Claim C23: the response `braceInIssue` is one verdict object, decoding as a
whole to verdict PASS with confidence 1, whose issue string holds an opening
brace. The scanner counts that brace, the depth ends at 1, and the extraction
is empty instead of the object; `Verify` and `VerifyMR` therefore report
NEEDS_HUMAN with confidence 0, and the enabled verification gate answers
needs_review. -/
theorem brace_in_string_defeats_extraction :
    braceLib.Unmarshal braceInIssue =
      .ok { Verdict := "PASS", Confidence := 1, Issues := ["unbalanced \x7b in log"],
            Suggestions := [] } ∧
    lbrace ∈ "unbalanced \x7b in log".data ∧
    braceInIssue.data.head? = some lbrace ∧ braceInIssue.data.getLast? = some rbrace ∧
    depthOf braceInIssue.data = 1 ∧
    extractJSON braceInIssue = "" ∧ extractJSON braceInIssue ≠ braceInIssue ∧
    (∃ res, ((sampleGate DefaultVerificationConfig (.ok braceInIssue)).auditor.Verify
        braceLib sampleClock background "gt-1" "/work").ret = .ok res ∧
      res.Verdict = VerdictNeedsHuman ∧ res.Verdict ≠ VerdictPass ∧ res.Confidence = 0) ∧
    (∃ res, ((sampleGate DefaultVerificationConfig (.ok braceInIssue)).auditor.VerifyMR
        braceLib sampleClock background "gt-1" "polecat/gt-1" "main" "/work").ret = .ok res ∧
      res.Verdict = VerdictNeedsHuman ∧ res.Verdict ≠ VerdictPass ∧ res.Confidence = 0) ∧
    ((sampleGate DefaultVerificationConfig (.ok braceInIssue)).VerifyMR
        braceLib sampleClock background sampleMR "/work").ret.1.Status =
      VerificationNeedsReview := by
  refine ⟨by rfl, by decide, by decide, by decide, by decide, by decide, by decide,
    ⟨_, rfl, by rfl, by decide, by rfl⟩, ⟨_, rfl, by rfl, by decide, by rfl⟩, by rfl⟩

/-! ## The runtime a configured verification gate uses -/

/-- Claim C24, at a failing input. The constructor never reads
`PreferredRuntime`: the runtime of the gate is what `GetForRole` selects for
the auditor role, whatever the configuration. With codex and claude installed
and claude preferred, claude is available and the gate still uses codex. -/
theorem preferred_runtime_is_ignored :
    (∀ (h : Host) (beadsNew : String → Beads) (workdir : String)
        (config : VerificationConfig) (g : VerificationGate),
      NewVerificationGateWithConfig h beadsNew workdir config = .ok g →
      g.auditor.runtime = (NewRuntimeRegistry h).GetForRole "auditor" ∧ g.config = config) ∧
    (NewRuntimeRegistry (hostWith ["codex", "claude"])).HasRuntime "claude" = true ∧
    (∃ g, NewVerificationGateWithConfig (hostWith ["codex", "claude"]) (fun _ => sampleBeads)
        "/work" { DefaultVerificationConfig with PreferredRuntime := "claude" } = .ok g ∧
      g.config.PreferredRuntime = "claude" ∧ g.RuntimeName = "codex") := by
  refine ⟨?_, by rfl, ⟨_, rfl, rfl, by rfl⟩⟩
  intro h beadsNew workdir config g hg
  have hgate : NewVerificationGateWithConfig h beadsNew workdir config =
      match New (NewRuntimeRegistry h) (beadsNew workdir) with
      | .error err => .error err
      | .ok aud => .ok { auditor := aud, config := config } := rfl
  rw [hgate] at hg
  unfold New at hg
  cases hr : (NewRuntimeRegistry h).GetForRole "auditor" with
  | none =>
    rw [hr] at hg
    cases hg
  | some rt =>
    rw [hr] at hg
    cases hg
    exact ⟨rfl, rfl⟩

/-! ## Errors of the auditor seen through the verification gate -/

/-- Claim C27: when the auditor returns an error to the enabled verification
gate, `VerifyMR` and `VerifyBead` return that error together with the info of
status needs_review whose only issue quotes it; `CanProceed` is false and
`ShouldEscalate` is true of that info. A missing runtime is such an error for
both operations, a failed tracker lookup for `VerifyBead`. -/
theorem auditor_error_is_returned (g : VerificationGate) (lib : GoLib) (clk : Clock)
    (ctx : Context) (mr : MergeRequest) (beadID workdir : String)
    (hen : g.config.Enabled = true) :
    (∀ err, (g.auditor.VerifyMR lib clk (g.timeoutContext ctx) mr.ID mr.Branch mr.TargetBranch
        workdir).ret = .error err →
      (g.VerifyMR lib clk ctx mr workdir).ret =
        ({ Status := VerificationNeedsReview,
           Issues := ["Verification error: " ++ err.Error] }, some err) ∧
      CanProceed (some (g.VerifyMR lib clk ctx mr workdir).ret.1) = false ∧
      ShouldSlingBack (some (g.VerifyMR lib clk ctx mr workdir).ret.1) = false ∧
      ShouldEscalate (some (g.VerifyMR lib clk ctx mr workdir).ret.1) = true) ∧
    (∀ err, (g.auditor.Verify lib clk (g.timeoutContext ctx) beadID workdir).ret = .error err →
      (g.VerifyBead lib clk ctx beadID workdir).ret =
        ({ Status := VerificationNeedsReview,
           Issues := ["Verification error: " ++ err.Error] }, some err) ∧
      CanProceed (some (g.VerifyBead lib clk ctx beadID workdir).ret.1) = false ∧
      ShouldSlingBack (some (g.VerifyBead lib clk ctx beadID workdir).ret.1) = false ∧
      ShouldEscalate (some (g.VerifyBead lib clk ctx beadID workdir).ret.1) = true) ∧
    (g.auditor.runtime = none →
      (g.auditor.VerifyMR lib clk (g.timeoutContext ctx) mr.ID mr.Branch mr.TargetBranch
        workdir).ret = .error ErrNoRuntime ∧
      (g.auditor.Verify lib clk (g.timeoutContext ctx) beadID workdir).ret =
        .error ErrNoRuntime) ∧
    (∀ rt e, g.auditor.runtime = some rt → g.auditor.beadsDB.Show beadID = .error e →
      ∃ err, (g.auditor.Verify lib clk (g.timeoutContext ctx) beadID workdir).ret =
        .error err) := by
  refine ⟨?_, ?_, ?_, ?_⟩
  · intro err herr
    have hret : (g.VerifyMR lib clk ctx mr workdir).ret =
        ({ Status := VerificationNeedsReview,
           Issues := ["Verification error: " ++ err.Error] }, some err) := by
      simp only [VerificationGate.VerifyMR, hen, herr]
      rfl
    rw [hret]
    exact ⟨rfl, by rfl, by rfl, by rfl⟩
  · intro err herr
    have hret : (g.VerifyBead lib clk ctx beadID workdir).ret =
        ({ Status := VerificationNeedsReview,
           Issues := ["Verification error: " ++ err.Error] }, some err) := by
      simp only [VerificationGate.VerifyBead, hen, herr]
      rfl
    rw [hret]
    exact ⟨rfl, by rfl, by rfl, by rfl⟩
  · intro hrt
    simp only [Auditor.VerifyMR, Auditor.Verify, hrt, and_self]
  · intro rt e hrt hshow
    simp only [Auditor.Verify, hrt, hshow]
    split_ifs <;> exact ⟨_, rfl⟩

/-- Claim C27 on a concrete input: the sample tracker does not know gt-404, and
`VerifyBead` returns the wrapped not-found error with the info that quotes
it. -/
theorem auditor_error_is_returned_witness :
    ((sampleGate DefaultVerificationConfig (.ok "I cannot determine")).VerifyBead
        sampleLib sampleClock background "gt-404" "/work").ret =
      ({ Status := VerificationNeedsReview,
         Issues := ["Verification error: bead not found: gt-404"] },
       some (.wrap "bead not found: gt-404" ErrBeadNotFound)) :=
  ((auditor_error_is_returned
    (sampleGate DefaultVerificationConfig (.ok "I cannot determine"))
    sampleLib sampleClock background sampleMR "gt-404" "/work" rfl).2.1
    (.wrap "bead not found: gt-404" ErrBeadNotFound) (by rfl)).1

/-! ## The exit code of `gt verify require` -/

/-- Claim C25: when `gt verify require` gets as far as running the verification
and the auditor returns a result, the exit code is 0 exactly for the verdict
PASS, 1 exactly for FAIL and 2 exactly for NEEDS_HUMAN: the command returns
nil, `SilentExitError` with code 1 and `SilentExitError` with code 2 in the
three cases. -/
theorem require_exit_code (h : Host) (beadsNew : String → Beads)
    (getwd : Except GoError String) (verifyForce : Bool) (verifyTimeout : Int) (lib : GoLib)
    (clk : Clock) (beadID cwd : String) (aud : Auditor) (result : VerificationResult)
    (hwd : getwd = .ok cwd)
    (hnew : New (NewRuntimeRegistry h) (beadsNew cwd) = .ok aud)
    (hrun : verifyForce = true ∨
      ∀ bead, (beadsNew cwd).Show beadID = .ok bead → alreadyVerified bead.Labels = false)
    (hres : (aud.Verify lib clk (({ budget := none } : Context).WithTimeout verifyTimeout)
      beadID cwd).ret = .ok result) :
    (runVerifyRequire h beadsNew getwd verifyForce verifyTimeout lib clk beadID = none ↔
      result.Verdict = VerdictPass) ∧
    (runVerifyRequire h beadsNew getwd verifyForce verifyTimeout lib clk beadID =
      some (.SilentExitError 1) ↔ result.Verdict = VerdictFail) ∧
    (runVerifyRequire h beadsNew getwd verifyForce verifyTimeout lib clk beadID =
      some (.SilentExitError 2) ↔ result.Verdict = VerdictNeedsHuman) ∧
    (exitCode (runVerifyRequire h beadsNew getwd verifyForce verifyTimeout lib clk beadID) = 0 ↔
      result.Verdict = VerdictPass) ∧
    (exitCode (runVerifyRequire h beadsNew getwd verifyForce verifyTimeout lib clk beadID) = 1 ↔
      result.Verdict = VerdictFail) ∧
    (exitCode (runVerifyRequire h beadsNew getwd verifyForce verifyTimeout lib clk beadID) = 2 ↔
      result.Verdict = VerdictNeedsHuman) := by
  have hrun2 : runVerifyRequire h beadsNew getwd verifyForce verifyTimeout lib clk beadID =
      (if result.Verdict = VerdictPass then none
       else if result.Verdict = VerdictFail then some (.SilentExitError 1)
       else if result.Verdict = VerdictNeedsHuman then some (.SilentExitError 2)
       else none) := by
    cases hforce : verifyForce with
    | true => simp [runVerifyRequire, hwd, hnew, hres]
    | false =>
      have hl : ∀ bead, (beadsNew cwd).Show beadID = .ok bead →
          alreadyVerified bead.Labels = false := by
        rcases hrun with hf | hl
        · rw [hforce] at hf
          cases hf
        · exact hl
      cases hshow : (beadsNew cwd).Show beadID with
      | error e => simp [runVerifyRequire, hwd, hnew, hres, hshow]
      | ok bead => simp [runVerifyRequire, hwd, hnew, hres, hshow, hl bead hshow]
  have hFP : VerdictFail ≠ VerdictPass := by decide
  have hNP : VerdictNeedsHuman ≠ VerdictPass := by decide
  have hNF : VerdictNeedsHuman ≠ VerdictFail := by decide
  rw [hrun2]
  rcases verify_verdict_mem _ _ _ _ _ _ result hres with hv | hv | hv
  · rw [hv]
    simp [exitCode, hFP.symm, hNP.symm]
  · rw [hv]
    simp [exitCode, hFP, hNF.symm]
  · rw [hv]
    simp [exitCode, hNP, hNF]

/-- Claim C25 on a concrete input: codex is installed and answers PASS for the
bead gt-1, which carries no label, and the command exits with 0. -/
theorem require_exit_code_witness :
    exitCode (runVerifyRequire
      (answeringHost ["codex"]
        "\x7b\"verdict\":\"PASS\",\"confidence\":0.92,\"issues\":[],\"suggestions\":[\"add tests\"]\x7d")
      (fun _ => sampleBeads) (.ok "/work") false 300000000000 sampleLib sampleClock "gt-1") = 0 :=
  ((require_exit_code
      (answeringHost ["codex"]
        "\x7b\"verdict\":\"PASS\",\"confidence\":0.92,\"issues\":[],\"suggestions\":[\"add tests\"]\x7d")
      (fun _ => sampleBeads) (.ok "/work") false 300000000000 sampleLib sampleClock "gt-1"
      "/work" _ _ rfl rfl
      (Or.inr (fun bead hb => by cases hb; rfl)) rfl).2.2.2.1).mpr (by rfl)

/-! ## End-to-end safety of the verification gate -/

/-- A PASS of `parseResponse` comes from a decoded verdict that upper-cases to
PASS, and carries the clamped confidence. -/
theorem parseResponse_pass_iff (lib : GoLib) (response id : String) (t : ℚ) :
    (∃ r, parseResponse lib response id = .ok r ∧ r.Verdict = VerdictPass ∧
      t ≤ r.Confidence) ↔
    ∃ p, extractJSON response ≠ "" ∧ lib.Unmarshal (extractJSON response) = .ok p ∧
      ToUpper lib p.Verdict = "PASS" ∧ t ≤ clampConfidence p.Confidence := by
  have hFP : VerdictFail ≠ VerdictPass := by decide
  have hNP : VerdictNeedsHuman ≠ VerdictPass := by decide
  constructor
  · rintro ⟨r, hr, hv, hc⟩
    obtain ⟨hj, p, hdec⟩ := decoded_of_parseResponse lib response id r hr
    obtain ⟨r2, h2, _, hconf, _, _, hverdict⟩ :=
      parseResponse_of_decoded lib response id p hj hdec
    rw [h2] at hr
    cases hr
    refine ⟨p, hj, hdec, ?_, by rw [← hconf]; exact hc⟩
    by_contra hne
    rw [hverdict, if_neg hne] at hv
    split_ifs at hv
    · exact hFP hv
    · exact hNP hv
  · rintro ⟨p, hj, hdec, hup, hc⟩
    obtain ⟨r, hr, _, hconf, _, _, hverdict⟩ :=
      parseResponse_of_decoded lib response id p hj hdec
    exact ⟨r, hr, by rw [hverdict, if_pos hup], by rw [hconf]; exact hc⟩

/-- A PASS of `Auditor.VerifyMR` comes from a PASS of `parseResponse` on the
output of a tool that ran. -/
theorem verifyMR_pass_iff (a : Auditor) (lib : GoLib) (clk : Clock) (ctx : Context)
    (mrID branch targetBranch workdir : String) (t : ℚ) :
    (∃ r, (a.VerifyMR lib clk ctx mrID branch targetBranch workdir).ret = .ok r ∧
      r.Verdict = VerdictPass ∧ t ≤ r.Confidence) ↔
    ∃ rt response, a.runtime = some rt ∧
      rt.Execute ctx (buildMRPrompt mrID branch targetBranch workdir) workdir = .ok response ∧
      ∃ r, parseResponse lib response mrID = .ok r ∧ r.Verdict = VerdictPass ∧
        t ≤ r.Confidence := by
  have hNP : VerdictNeedsHuman ≠ VerdictPass := by decide
  constructor
  · rintro ⟨r, hr, hv, hc⟩
    unfold Auditor.VerifyMR at hr
    cases hrt : a.runtime with
    | none => simp [hrt] at hr
    | some rt =>
      simp only [hrt] at hr
      cases hex : rt.Execute ctx (buildMRPrompt mrID branch targetBranch workdir) workdir with
      | error e =>
        simp only [hex] at hr
        cases hr
        exact absurd hv hNP
      | ok response =>
        simp only [hex] at hr
        cases hp : parseResponse lib response mrID with
        | error e =>
          simp only [hp] at hr
          cases hr
          exact absurd hv hNP
        | ok r0 =>
          simp only [hp] at hr
          cases hr
          exact ⟨rt, response, rfl, hex, r0, hp, hv, hc⟩
  · rintro ⟨rt, response, hrt, hex, r0, hp, hv, hc⟩
    simp only [Auditor.VerifyMR, hrt, hex, hp]
    exact ⟨_, rfl, hv, hc⟩

/-- A PASS of `Auditor.Verify` comes from a PASS of `parseResponse` on the
output of a tool that ran, after a successful lookup. -/
theorem verify_pass_iff (a : Auditor) (lib : GoLib) (clk : Clock) (ctx : Context)
    (beadID workdir : String) (t : ℚ) :
    (∃ r, (a.Verify lib clk ctx beadID workdir).ret = .ok r ∧
      r.Verdict = VerdictPass ∧ t ≤ r.Confidence) ↔
    ∃ rt bead response, a.runtime = some rt ∧ a.beadsDB.Show beadID = .ok bead ∧
      rt.Execute ctx (buildPrompt bead workdir) workdir = .ok response ∧
      ∃ r, parseResponse lib response beadID = .ok r ∧ r.Verdict = VerdictPass ∧
        t ≤ r.Confidence := by
  have hNP : VerdictNeedsHuman ≠ VerdictPass := by decide
  constructor
  · rintro ⟨r, hr, hv, hc⟩
    unfold Auditor.Verify at hr
    cases hrt : a.runtime with
    | none => simp [hrt] at hr
    | some rt =>
      simp only [hrt] at hr
      cases hshow : a.beadsDB.Show beadID with
      | error e =>
        simp only [hshow] at hr
        split_ifs at hr
      | ok bead =>
        simp only [hshow] at hr
        cases hex : rt.Execute ctx (buildPrompt bead workdir) workdir with
        | error e =>
          simp only [hex] at hr
          cases hr
          exact absurd hv hNP
        | ok response =>
          simp only [hex] at hr
          cases hp : parseResponse lib response beadID with
          | error e =>
            simp only [hp] at hr
            cases hr
            exact absurd hv hNP
          | ok r0 =>
            simp only [hp] at hr
            cases hr
            exact ⟨rt, bead, response, rfl, rfl, hex, r0, hp, hv, hc⟩
  · rintro ⟨rt, bead, response, hrt, hshow, hex, r0, hp, hv, hc⟩
    simp only [Auditor.Verify, hrt, hshow, hex, hp]
    exact ⟨_, rfl, hv, hc⟩

/-- The status verified, the only way to `CanProceed` for an enabled gate, is
given exactly for a PASS of the auditor at or above the threshold. -/
theorem canProceed_iff_auditor_pass (g : VerificationGate) (lib : GoLib) (clk : Clock)
    (ctx : Context) (mr : MergeRequest) (beadID workdir : String)
    (hen : g.config.Enabled = true) :
    (CanProceed (some (g.VerifyMR lib clk ctx mr workdir).ret.1) = true ↔
      ∃ r, (g.auditor.VerifyMR lib clk (g.timeoutContext ctx) mr.ID mr.Branch mr.TargetBranch
        workdir).ret = .ok r ∧ r.Verdict = VerdictPass ∧
        g.config.RequiredConfidence ≤ r.Confidence) ∧
    (CanProceed (some (g.VerifyBead lib clk ctx beadID workdir).ret.1) = true ↔
      ∃ r, (g.auditor.Verify lib clk (g.timeoutContext ctx) beadID workdir).ret = .ok r ∧
        r.Verdict = VerdictPass ∧ g.config.RequiredConfidence ≤ r.Confidence) := by
  have hFP : VerdictFail ≠ VerdictPass := by decide
  have hNP : VerdictNeedsHuman ≠ VerdictPass := by decide
  have hNF : VerdictNeedsHuman ≠ VerdictFail := by decide
  have hs1 : VerificationNeedsReview ≠ VerificationVerified := by decide
  have hs2 : VerificationNeedsReview ≠ VerificationSkipped := by decide
  have hs3 : VerificationRejected ≠ VerificationVerified := by decide
  have hs4 : VerificationRejected ≠ VerificationSkipped := by decide
  have hs5 : ("" : String) ≠ VerificationVerified := by decide
  have hs6 : ("" : String) ≠ VerificationSkipped := by decide
  constructor
  · cases hr : (g.auditor.VerifyMR lib clk (g.timeoutContext ctx) mr.ID mr.Branch
        mr.TargetBranch workdir).ret with
    | error e =>
      simp [VerificationGate.VerifyMR, hen, hr, CanProceed, hs1, hs2]
    | ok r =>
      by_cases hv : r.Verdict = VerdictPass
      · by_cases hc : g.config.RequiredConfidence ≤ r.Confidence
        · simp [VerificationGate.VerifyMR, hen, hr, CanProceed, hv, hc]
        · simp [VerificationGate.VerifyMR, hen, hr, CanProceed, hv, hc, hs1, hs2]
      · by_cases hf : r.Verdict = VerdictFail
        · simp [VerificationGate.VerifyMR, hen, hr, CanProceed, hf, hFP, hs3, hs4]
        · by_cases hn : r.Verdict = VerdictNeedsHuman
          · simp [VerificationGate.VerifyMR, hen, hr, CanProceed, hn, hNP, hNF, hs1, hs2]
          · simp [VerificationGate.VerifyMR, hen, hr, CanProceed, hv, hf, hn, hs5, hs6]
  · cases hr : (g.auditor.Verify lib clk (g.timeoutContext ctx) beadID workdir).ret with
    | error e =>
      simp [VerificationGate.VerifyBead, hen, hr, CanProceed, hs1, hs2]
    | ok r =>
      by_cases hv : r.Verdict = VerdictPass
      · by_cases hc : g.config.RequiredConfidence ≤ r.Confidence
        · simp [VerificationGate.VerifyBead, hen, hr, CanProceed, hv, hc]
        · simp [VerificationGate.VerifyBead, hen, hr, CanProceed, hv, hc, hs1, hs2]
      · by_cases hf : r.Verdict = VerdictFail
        · simp [VerificationGate.VerifyBead, hen, hr, CanProceed, hf, hFP, hs3, hs4]
        · by_cases hn : r.Verdict = VerdictNeedsHuman
          · simp [VerificationGate.VerifyBead, hen, hr, CanProceed, hn, hNP, hNF, hs1, hs2]
          · simp [VerificationGate.VerifyBead, hen, hr, CanProceed, hv, hf, hn, hs5, hs6]

/-- Claim C28: for an enabled verification gate `CanProceed` holds of the info
that `VerifyMR` or `VerifyBead` returns exactly when the reviewing tool ran
(for `VerifyBead`: after a successful lookup), its output holds an extractable
object that decodes, the decoded verdict is PASS up to letter case, and the
decoded confidence clamped into the unit interval reaches the threshold. So an
execution failure, a parse failure, an unknown verdict, FAIL and NEEDS_HUMAN
never let the change proceed. -/
theorem canProceed_iff_pass_above_threshold (g : VerificationGate) (lib : GoLib)
    (clk : Clock) (ctx : Context) (mr : MergeRequest) (beadID workdir : String)
    (hen : g.config.Enabled = true) :
    (CanProceed (some (g.VerifyMR lib clk ctx mr workdir).ret.1) = true ↔
      ∃ rt response p, g.auditor.runtime = some rt ∧
        rt.Execute (g.timeoutContext ctx)
          (buildMRPrompt mr.ID mr.Branch mr.TargetBranch workdir) workdir = .ok response ∧
        extractJSON response ≠ "" ∧ lib.Unmarshal (extractJSON response) = .ok p ∧
        EqualUpToCase lib p.Verdict "PASS" ∧
        g.config.RequiredConfidence ≤ clampConfidence p.Confidence) ∧
    (CanProceed (some (g.VerifyBead lib clk ctx beadID workdir).ret.1) = true ↔
      ∃ rt bead response p, g.auditor.runtime = some rt ∧
        g.auditor.beadsDB.Show beadID = .ok bead ∧
        rt.Execute (g.timeoutContext ctx) (buildPrompt bead workdir) workdir = .ok response ∧
        extractJSON response ≠ "" ∧ lib.Unmarshal (extractJSON response) = .ok p ∧
        EqualUpToCase lib p.Verdict "PASS" ∧
        g.config.RequiredConfidence ≤ clampConfidence p.Confidence) := by
  have hcase : ∀ tok : String, EqualUpToCase lib tok "PASS" ↔ ToUpper lib tok = "PASS" :=
    fun _ => Iff.rfl
  obtain ⟨hmr, hbead⟩ := canProceed_iff_auditor_pass g lib clk ctx mr beadID workdir hen
  constructor
  · rw [hmr, verifyMR_pass_iff]
    constructor
    · rintro ⟨rt, response, hrt, hex, hp⟩
      obtain ⟨p, hj, hdec, hup, hc⟩ := (parseResponse_pass_iff lib response mr.ID _).mp hp
      exact ⟨rt, response, p, hrt, hex, hj, hdec, (hcase _).mpr hup, hc⟩
    · rintro ⟨rt, response, p, hrt, hex, hj, hdec, hup, hc⟩
      exact ⟨rt, response, hrt, hex,
        (parseResponse_pass_iff lib response mr.ID _).mpr ⟨p, hj, hdec, (hcase _).mp hup, hc⟩⟩
  · rw [hbead, verify_pass_iff]
    constructor
    · rintro ⟨rt, bead, response, hrt, hshow, hex, hp⟩
      obtain ⟨p, hj, hdec, hup, hc⟩ := (parseResponse_pass_iff lib response beadID _).mp hp
      exact ⟨rt, bead, response, p, hrt, hshow, hex, hj, hdec, (hcase _).mpr hup, hc⟩
    · rintro ⟨rt, bead, response, p, hrt, hshow, hex, hj, hdec, hup, hc⟩
      exact ⟨rt, bead, response, hrt, hshow, hex,
        (parseResponse_pass_iff lib response beadID _).mpr
          ⟨p, hj, hdec, (hcase _).mp hup, hc⟩⟩

/-- Claim C28 on concrete inputs: the answer pass with confidence 1.7, clamped
to 1, lets the merge request proceed under the default threshold, and the
killed tool does not. -/
theorem canProceed_iff_pass_above_threshold_witness :
    CanProceed (some ((sampleGate DefaultVerificationConfig
        (.ok "\x7b\"verdict\":\"pass\",\"confidence\":1.7\x7d")).VerifyMR
        sampleLib sampleClock background sampleMR "/work").ret.1) = true ∧
    ¬ CanProceed (some ((sampleGate DefaultVerificationConfig
        (.error (.new "codex execution failed: signal: killed"))).VerifyMR
        sampleLib sampleClock background sampleMR "/work").ret.1) = true :=
  ⟨((canProceed_iff_pass_above_threshold
      (sampleGate DefaultVerificationConfig
        (.ok "\x7b\"verdict\":\"pass\",\"confidence\":1.7\x7d"))
      sampleLib sampleClock background sampleMR "gt-1" "/work" rfl).1).mpr
      ⟨sampleRuntime (.ok "\x7b\"verdict\":\"pass\",\"confidence\":1.7\x7d"),
        "\x7b\"verdict\":\"pass\",\"confidence\":1.7\x7d",
        { Verdict := "pass", Confidence := 17 / 10 }, rfl, rfl, by decide, by rfl, by rfl,
        by with_unfolding_all decide⟩,
   fun hcan =>
    (((canProceed_iff_pass_above_threshold
      (sampleGate DefaultVerificationConfig
        (.error (.new "codex execution failed: signal: killed")))
      sampleLib sampleClock background sampleMR "gt-1" "/work" rfl).1).mp hcan).elim
      fun _ h => h.elim fun _ h2 => h2.elim fun _ h3 => by
        have hex := h3.2.1
        have hrt := h3.1
        cases hrt
        cases hex⟩

/-! ## The shape of an extracted group -/

/-- A non-empty extraction is the group cut at the first return to depth 0. -/
theorem extractJSON_nonempty_cut (text : String) (hne : extractJSON text ≠ "") :
    ∃ pre s k, text.data = pre ++ lbrace :: s ∧ lbrace ∉ pre ∧ 1 ≤ k ∧ k ≤ s.length + 1 ∧
      depthOf ((lbrace :: s).take k) = 0 ∧
      (∀ m, 1 ≤ m → m < k → depthOf ((lbrace :: s).take m) ≠ 0) ∧
      extractJSON text = String.mk ((lbrace :: s).take k) := by
  rcases extractJSON_cases text with h | ⟨pre, s, htext, hpre, h | ⟨k, hk1, hk, hz, hmin⟩⟩
  · exact absurd (extractJSON_no_brace text h) hne
  · exact absurd (extractJSON_not_found text pre s htext hpre h) hne
  · exact ⟨pre, s, k, htext, hpre, hk1, hk, hz, hmin,
      extractJSON_found text pre s k htext hpre hk1 hk hz hmin⟩

/-- The depth is the number of opening braces less the number of closing ones. -/
theorem depthOf_eq_count (l : List Char) :
    depthOf l = (l.count lbrace : Int) - (l.count rbrace : Int) := by
  induction l with
  | nil => simp [depthOf]
  | cons c l ih =>
    rw [depthOf_cons, ih]
    by_cases hl : c = lbrace
    · subst hl
      have h : lbrace ≠ rbrace := lbrace_ne_rbrace
      simp [braceDelta, List.count_cons, h]
      ring
    · by_cases hr : c = rbrace
      · subst hr
        simp [braceDelta, List.count_cons, hl]
        ring
      · simp [braceDelta, List.count_cons, hl, hr]

/-- One more character changes the depth by its delta. -/
theorem depthOf_take_succ (l : List Char) (n : Nat) (h : n < l.length) :
    depthOf (l.take (n + 1)) = depthOf (l.take n) + braceDelta (l.get ⟨n, h⟩) := by
  rw [List.take_succ, depthOf_append, List.getElem?_eq_getElem h]
  simp [depthOf]

theorem braceDelta_le (c : Char) : braceDelta c ≤ 1 := by
  unfold braceDelta
  split_ifs <;> omega

theorem eq_rbrace_of_braceDelta (c : Char) (h : braceDelta c = -1) : c = rbrace := by
  by_cases h1 : c = lbrace
  · simp [braceDelta, h1] at h
  · by_cases h2 : c = rbrace
    · exact h2
    · simp [braceDelta, h1, h2] at h

/-- Before the first return to 0 the depth of the group is positive. -/
theorem depth_pos_before_return (s : List Char) (k : Nat) (hk : k ≤ s.length + 1)
    (hmin : ∀ m, 1 ≤ m → m < k → depthOf ((lbrace :: s).take m) ≠ 0) :
    ∀ m, 1 ≤ m → m < k → 0 < depthOf ((lbrace :: s).take m) := by
  intro m
  induction m with
  | zero => intro h; omega
  | succ n ih =>
    intro _ hlt
    rcases Nat.eq_zero_or_pos n with h0 | hpos
    · subst h0
      rw [depthOf_take_succ_cons, List.take_zero, depthOf_nil]
      decide
    · have hprev := ih hpos (by omega)
      have hlen : n < (lbrace :: s).length := by simp; omega
      have hstep := depthOf_take_succ (lbrace :: s) n hlen
      have hne := hmin (n + 1) (by omega) hlt
      have hge := braceDelta_ge ((lbrace :: s).get ⟨n, hlen⟩)
      omega

/-- The group cut at the first return to 0 ends with a closing brace. -/
theorem cut_ends_with_rbrace (s : List Char) (k : Nat) (hk1 : 1 ≤ k) (hk : k ≤ s.length + 1)
    (hz : depthOf ((lbrace :: s).take k) = 0)
    (hmin : ∀ m, 1 ≤ m → m < k → depthOf ((lbrace :: s).take m) ≠ 0) :
    ∃ body, (lbrace :: s).take k = body ++ [rbrace] := by
  obtain ⟨n, rfl⟩ : ∃ n, k = n + 1 := ⟨k - 1, by omega⟩
  have hlen : n < (lbrace :: s).length := by simp; omega
  have hstep := depthOf_take_succ (lbrace :: s) n hlen
  have hn1 : 1 ≤ n := by
    rcases Nat.eq_zero_or_pos n with h0 | hpos
    · subst h0
      rw [depthOf_take_succ_cons, List.take_zero, depthOf_nil] at hz
      revert hz
      decide
    · exact hpos
  have hprev := depth_pos_before_return s (n + 1) hk hmin n hn1 (by omega)
  have hge := braceDelta_ge ((lbrace :: s).get ⟨n, hlen⟩)
  have hd : braceDelta ((lbrace :: s).get ⟨n, hlen⟩) = -1 := by omega
  have hc := eq_rbrace_of_braceDelta _ hd
  refine ⟨(lbrace :: s).take n, ?_⟩
  rw [List.take_succ, List.getElem?_eq_getElem hlen]
  have hc2 : (lbrace :: s)[n] = rbrace := hc
  rw [hc2]
  rfl


/-- Claim C29: a non-empty result of `extractJSON` is a stretch of the text
that starts at its first opening brace, starts with an opening and ends with a
closing brace, holds as many opening as closing braces, and has no proper
non-empty prefix that does; and whatever text is put after the result, the
extraction returns the result again. -/
theorem extractJSON_result_shape (text : String) (hne : extractJSON text ≠ "") :
    (∃ pre post, text.data = pre ++ (extractJSON text).data ++ post ∧ lbrace ∉ pre) ∧
    (extractJSON text).data.head? = some lbrace ∧
    (extractJSON text).data.getLast? = some rbrace ∧
    (extractJSON text).data.count lbrace = (extractJSON text).data.count rbrace ∧
    (∀ m, 1 ≤ m → m < (extractJSON text).data.length →
      ((extractJSON text).data.take m).count lbrace ≠
        ((extractJSON text).data.take m).count rbrace) ∧
    (∀ s : String, extractJSON (extractJSON text ++ s) = extractJSON text) := by
  obtain ⟨pre, s, k, htext, hpre, hk1, hk, hz, hmin, hres⟩ := extractJSON_nonempty_cut text hne
  rw [hres]
  show (∃ pre post, text.data = pre ++ (lbrace :: s).take k ++ post ∧ lbrace ∉ pre) ∧
    ((lbrace :: s).take k).head? = some lbrace ∧
    ((lbrace :: s).take k).getLast? = some rbrace ∧
    ((lbrace :: s).take k).count lbrace = ((lbrace :: s).take k).count rbrace ∧
    (∀ m, 1 ≤ m → m < ((lbrace :: s).take k).length →
      (((lbrace :: s).take k).take m).count lbrace ≠
        (((lbrace :: s).take k).take m).count rbrace) ∧
    (∀ t : String, extractJSON (String.mk ((lbrace :: s).take k) ++ t) =
      String.mk ((lbrace :: s).take k))
  refine ⟨⟨pre, (lbrace :: s).drop k, ?_, hpre⟩, ?_, ?_, ?_, ?_, ?_⟩
  · rw [List.append_assoc, List.take_append_drop, htext]
  · obtain ⟨n, rfl⟩ : ∃ n, k = n + 1 := ⟨k - 1, by omega⟩
    rw [List.take_succ_cons]
    rfl
  · obtain ⟨body, hbody⟩ := cut_ends_with_rbrace s k hk1 hk hz hmin
    rw [hbody, List.getLast?_concat]
  · have h := depthOf_eq_count ((lbrace :: s).take k)
    rw [hz] at h
    omega
  · intro m hm1 hmk
    have hlen : ((lbrace :: s).take k).length = k := by
      rw [List.length_take]
      simp
      omega
    rw [hlen] at hmk
    rw [List.take_take, Nat.min_eq_left (le_of_lt hmk)]
    have h := depthOf_eq_count ((lbrace :: s).take m)
    have hnz := hmin m hm1 hmk
    omega
  · intro t
    exact extractJSON_found_append s k hk1 hk hz hmin _ t.data (by simp)

/-- Claim C29 on the response of the specification: the extracted object is
returned again when the text that followed it is replaced by another. -/
theorem extractJSON_result_shape_witness :
    extractJSON (extractJSON
        "Looks fine.\n\x7b\"verdict\":\"PASS\",\"confidence\":0.92,\"issues\":[],\"suggestions\":[\"add tests\"]\x7d\nDone."
      ++ " \x7d trailing") =
    extractJSON
      "Looks fine.\n\x7b\"verdict\":\"PASS\",\"confidence\":0.92,\"issues\":[],\"suggestions\":[\"add tests\"]\x7d\nDone." :=
  (extractJSON_result_shape
    "Looks fine.\n\x7b\"verdict\":\"PASS\",\"confidence\":0.92,\"issues\":[],\"suggestions\":[\"add tests\"]\x7d\nDone."
    (by decide)).2.2.2.2.2 " \x7d trailing"

/-! ## First brace to last brace, or to the matching brace -/

/-- Dropping from the right stops at the end of a part that ends with an
element the test rejects. -/
theorem rdropWhile_append_of_last_neg (p : Char → Bool) (body : List Char) (x : Char)
    (hx : p x = false) (t : List Char) :
    List.rdropWhile p (body ++ [x] ++ t) = body ++ [x] ++ List.rdropWhile p t := by
  induction t using List.reverseRecOn with
  | nil =>
    rw [List.append_nil, List.rdropWhile_nil, List.append_nil]
    exact List.rdropWhile_concat_neg p body x (by simp [hx])
  | append_singleton t y ih =>
    by_cases hy : p y = true
    · rw [← List.append_assoc, List.rdropWhile_concat_pos p _ y hy,
        List.rdropWhile_concat_pos p t y hy, ih]
    · rw [← List.append_assoc, List.rdropWhile_concat_neg p _ y hy,
        List.rdropWhile_concat_neg p t y hy, List.append_assoc (body ++ [x])]

/-- Claim C26, what fails: on a text with two brace groups `extractJSON`
returns the first group, not the text from the first opening brace to the last
closing brace. -/
theorem extractJSON_stops_at_matching_brace :
    extractJSON "\x7b\"verdict\":\"PASS\"\x7d and \x7b\"note\":1\x7d" =
      "\x7b\"verdict\":\"PASS\"\x7d" ∧
    String.mk (sliceFirstToLast "\x7b\"verdict\":\"PASS\"\x7d and \x7b\"note\":1\x7d".data) =
      "\x7b\"verdict\":\"PASS\"\x7d and \x7b\"note\":1\x7d" ∧
    extractJSON "\x7b\"verdict\":\"PASS\"\x7d and \x7b\"note\":1\x7d" ≠
      String.mk (sliceFirstToLast "\x7b\"verdict\":\"PASS\"\x7d and \x7b\"note\":1\x7d".data) := by
  decide

/-- Claim C26, amended: a non-empty result of `extractJSON` runs from the first
opening brace of the text to the first closing brace at which the brace depth
is back at 0; the text from the first opening brace to the last closing brace
is that result followed by whatever the rest of the text holds up to its last
closing brace, so the two agree exactly when no closing brace follows the
result. -/
theorem extractJSON_first_to_matching (text : String) (hne : extractJSON text ≠ "") :
    ∃ pre post, text.data = pre ++ (extractJSON text).data ++ post ∧ lbrace ∉ pre ∧
      (extractJSON text).data.head? = some lbrace ∧
      (extractJSON text).data.getLast? = some rbrace ∧
      depthOf (extractJSON text).data = 0 ∧
      (∀ m, 1 ≤ m → m < (extractJSON text).data.length →
        depthOf ((extractJSON text).data.take m) ≠ 0) ∧
      sliceFirstToLast text.data =
        (extractJSON text).data ++ List.rdropWhile (fun c => c != rbrace) post ∧
      (String.mk (sliceFirstToLast text.data) = extractJSON text ↔ rbrace ∉ post) := by
  obtain ⟨pre, s, k, htext, hpre, hk1, hk, hz, hmin, hres⟩ := extractJSON_nonempty_cut text hne
  obtain ⟨body, hbody⟩ := cut_ends_with_rbrace s k hk1 hk hz hmin
  have hsplit : lbrace :: s = body ++ [rbrace] ++ (lbrace :: s).drop k := by
    rw [← hbody, List.take_append_drop]
  have hslice : sliceFirstToLast text.data =
      body ++ [rbrace] ++ List.rdropWhile (fun c => c != rbrace) ((lbrace :: s).drop k) := by
    have hdrop : (text.data).dropWhile (fun c => c != lbrace) = lbrace :: s := by
      rw [htext, List.dropWhile_append_of_pos]
      · simp
      · intro a ha
        have : a ≠ lbrace := fun e => hpre (e ▸ ha)
        simpa using this
    unfold sliceFirstToLast
    rw [hdrop]
    have h := rdropWhile_append_of_last_neg (fun c => c != rbrace) body rbrace (by simp)
      ((lbrace :: s).drop k)
    rw [← hsplit] at h
    exact h
  rw [hres]
  show ∃ pre post, text.data = pre ++ (lbrace :: s).take k ++ post ∧ lbrace ∉ pre ∧
      ((lbrace :: s).take k).head? = some lbrace ∧
      ((lbrace :: s).take k).getLast? = some rbrace ∧
      depthOf ((lbrace :: s).take k) = 0 ∧
      (∀ m, 1 ≤ m → m < ((lbrace :: s).take k).length →
        depthOf (((lbrace :: s).take k).take m) ≠ 0) ∧
      sliceFirstToLast text.data =
        (lbrace :: s).take k ++ List.rdropWhile (fun c => c != rbrace) post ∧
      (String.mk (sliceFirstToLast text.data) = String.mk ((lbrace :: s).take k) ↔
        rbrace ∉ post)
  refine ⟨pre, (lbrace :: s).drop k, ?_, hpre, ?_, ?_, hz, ?_, ?_, ?_⟩
  · rw [List.append_assoc, List.take_append_drop, htext]
  · obtain ⟨n, rfl⟩ : ∃ n, k = n + 1 := ⟨k - 1, by omega⟩
    rw [List.take_succ_cons]
    rfl
  · rw [hbody, List.getLast?_concat]
  · intro m hm1 hmk
    have hlen : ((lbrace :: s).take k).length = k := by
      rw [List.length_take]
      simp
      omega
    rw [hlen] at hmk
    rw [List.take_take, Nat.min_eq_left (le_of_lt hmk)]
    exact hmin m hm1 hmk
  · rw [hslice, hbody]
  · rw [hslice, hbody]
    constructor
    · intro h
      have h2 := congrArg String.data h
      simp only at h2
      have h3 : List.rdropWhile (fun c => c != rbrace) ((lbrace :: s).drop k) = [] := by
        simpa using h2
      rw [List.rdropWhile_eq_nil_iff] at h3
      intro hmem
      have := h3 rbrace hmem
      simp at this
    · intro h
      have h3 : List.rdropWhile (fun c => c != rbrace) ((lbrace :: s).drop k) = [] := by
        rw [List.rdropWhile_eq_nil_iff]
        intro x hx
        have : x ≠ rbrace := fun e => h (e ▸ hx)
        simpa using this
      rw [h3, List.append_nil]

/-- Claim C26, amended, on a concrete input: with nothing but prose after the
object, the first-to-last reading and the result agree. -/
theorem extractJSON_first_to_matching_witness :
    ∃ pre post,
      "Looks fine.\n\x7b\"verdict\":\"PASS\"\x7d\nDone.".data =
        pre ++ (extractJSON "Looks fine.\n\x7b\"verdict\":\"PASS\"\x7d\nDone.").data ++ post ∧
      (String.mk (sliceFirstToLast "Looks fine.\n\x7b\"verdict\":\"PASS\"\x7d\nDone.".data) =
        extractJSON "Looks fine.\n\x7b\"verdict\":\"PASS\"\x7d\nDone." ↔ rbrace ∉ post) :=
  (extractJSON_first_to_matching "Looks fine.\n\x7b\"verdict\":\"PASS\"\x7d\nDone."
    (by decide)).elim fun pre h => h.elim fun post hp => ⟨pre, post, hp.1, hp.2.2.2.2.2.2.2⟩

end Gastown
